import Mathlib

/-!
Verification of the image-compressor batch pipeline.

This file gives a shallow embedding of the batch-processing pipeline of the
repository (worker thread `CompressionWorker` in `gui/worker.py`, the
`ImageCompressor` class in `classes.py`, and the GUI helpers in
`gui/utils.py` / `gui/main_window.py`), and proves or refutes the
specification claims about it.

Conventions of the embedding:
- a filesystem path is a pair of a directory part and a file name, both kept
  as `List Char` (structural equality, matching POSIX `pathlib` equality);
- Python exceptions become `Except` / an `Option` error component;
- the external encoder and the filesystem are oracles (`TaskEnv`, `FS`);
- Python `float` arithmetic in the progress computation is modelled
  bit-faithfully over rationals (binary64 round-to-nearest-even), see the
  `floatOfRatPos` development below.
-/

/-! ## Characters and file names -/

/-- ASCII lower-casing of one character, as used by `str.lower()` on the
ASCII extensions handled by the program. -/
def lowerChar (c : Char) : Char :=
  if 65 ≤ c.toNat ∧ c.toNat ≤ 90 then Char.ofNat (c.toNat + 32) else c

/-- ASCII upper-casing of one character, as used by `str.upper()`. -/
def upperChar (c : Char) : Char :=
  if 97 ≤ c.toNat ∧ c.toNat ≤ 122 then Char.ofNat (c.toNat - 32) else c

/-- Index of the last dot of a file name (accumulator-passing scan). -/
def lastDotAux : List Char → Nat → Option Nat → Option Nat
  | [], _, acc => acc
  | c :: rest, i, acc => lastDotAux rest (i + 1) (if c = '.' then some i else acc)

/-- Index of the last `'.'` in a name, if any; mirrors `str.rfind` as used by
CPython `pathlib` to compute `stem` and `suffix`. -/
def lastDotIdx (name : List Char) : Option Nat := lastDotAux name 0 none

/-- CPython `PurePath` splits a name into `stem`/`suffix` at the last dot,
provided that dot is neither the first nor the last character. -/
def pySplitName (name : List Char) : List Char × List Char :=
  match lastDotIdx name with
  | none => (name, [])
  | some i => if 0 < i ∧ i + 1 < name.length then (name.take i, name.drop i) else (name, [])

/-- `Path(name).stem`. -/
def pyStem (name : List Char) : List Char := (pySplitName name).1

/-- `Path(name).suffix` (includes the leading dot when non-empty). -/
def pySuffix (name : List Char) : List Char := (pySplitName name).2

/-- A filesystem path: directory part plus file name.  `pathlib` equality on
POSIX flavour is structural, which this representation mirrors. -/
structure PPath where
  dir : List Char
  name : List Char
deriving DecidableEq, Repr

/-! ## Order-preserving deduplication (`dict.fromkeys`) and Python `set` -/

/-- `list(dict.fromkeys(xs))`: keep the first occurrence of each element,
preserving order.  Accumulator variant for structural recursion. -/
def dedupFirstAux [DecidableEq α] (seen : List α) : List α → List α
  | [] => []
  | x :: xs => if x ∈ seen then dedupFirstAux seen xs else x :: dedupFirstAux (x :: seen) xs

/-- `list(dict.fromkeys(xs))` from `worker.py` line 47 / `main_window.py`
line 200. -/
def dedupFirst [DecidableEq α] (xs : List α) : List α := dedupFirstAux [] xs

/-- `ys` is an admissible result of Python `list(set(xs))` (`worker.py`
line 33): the distinct elements of `xs`, each exactly once, in an
implementation-defined (hash-dependent) order. -/
def IsPySetList [DecidableEq α] (xs ys : List α) : Prop :=
  ys.Nodup ∧ (∀ a ∈ ys, a ∈ xs) ∧ (∀ a ∈ xs, a ∈ ys)

/-! ## `ImageCompressor` (classes.py) -/

/-- The Python exceptions that the modelled code can raise. -/
inductive PyErr
  | typeErr
  | valueErr
  | keyErr
  | errImport
deriving DecidableEq, Repr

/-- A Python value passed to the quality setter: an `int` or anything else
(the tag keeps distinct non-integer values distinct). -/
inductive PyVal
  | int (n : Int)
  | nonInt (tag : List Char)
deriving DecidableEq, Repr

/-- `ImageCompressor.output_formats` (classes.py line 62). -/
def output_formats : List (List Char × List Char) :=
  [(("HEIF").data, (".heic").data), (("WEBP").data, (".webp").data),
   (("AVIF").data, (".avif").data), (("JPEG").data, (".jpg").data)]

/-- Dictionary lookup `output_formats[k]`; `none` models a `KeyError`. -/
def lookupFormat (k : List Char) : Option (List Char) :=
  (output_formats.find? (fun kv => decide (kv.1 = k))).map (fun kv => kv.2)

/-- The state of an `ImageCompressor` object: the two private fields set by
`__init__` (classes.py lines 65-66). -/
structure ImageCompressor where
  quality : Int
  output_format : List Char
deriving DecidableEq, Repr

/-- `ImageCompressor.__init__` (classes.py lines 64-76): stores the quality
unvalidated, upper-cases the format, and only checks that the AVIF plugin is
importable when the format is AVIF. -/
def ImageCompressor.init (quality : Int) (output_format : List Char)
    (avifAvailable : Bool) : Except PyErr ImageCompressor :=
  let fmt := output_format.map upperChar
  if fmt = ("AVIF").data ∧ avifAvailable = false then .error .errImport
  else .ok ⟨quality, fmt⟩

/-- The `quality` property setter (classes.py lines 138-155).  The first
component is the object state after the call (unchanged when an exception is
raised, since the `raise` precedes the assignment), the second the raised
exception, if any. -/
def quality_setter (c : ImageCompressor) (value : PyVal) : ImageCompressor × Option PyErr :=
  match value with
  | .nonInt _ => (c, some .typeErr)
  | .int n => if n < 0 ∨ 100 < n then (c, some .valueErr) else (⟨n, c.output_format⟩, none)

/-- The `output_format` property setter (classes.py lines 166-193).  Note the
format field is assigned before the AVIF availability check. -/
def output_format_setter (c : ImageCompressor) (value : List Char)
    (avifAvailable : Bool) : ImageCompressor × Option PyErr :=
  let v := value.map upperChar
  if (lookupFormat v).isNone then (c, some .valueErr)
  else if v = ("AVIF").data ∧ avifAvailable = false then (⟨c.quality, v⟩, some .errImport)
  else (⟨c.quality, v⟩, none)

/-! ## Savings computation (gui/utils.py lines 78-92)

Python `/` on these operands is `float` true division; the value is only
compared against `0` and rendered with one decimal, and every claim instance
is exact, so it is modelled by exact rational arithmetic here. -/

/-- `get_savings_info` (gui/utils.py lines 78-92). -/
def get_savings_info (original_size compressed_size : Int) : Int × ℚ :=
  let saved_bytes := original_size - compressed_size
  let saved_percent : ℚ :=
    if 0 < original_size then ((saved_bytes : ℚ) / (original_size : ℚ)) * 100 else 0
  (saved_bytes, saved_percent)

/-! ## Path collection (gui/utils.py lines 10-36) and CLI input handling -/

/-- Does the second list start with the first one? -/
def leadMatch : List Char → List Char → Bool
  | [], _ => true
  | _ :: _, [] => false
  | a :: as, b :: bs => (a == b) && leadMatch as bs

/-- `s.endswith(e)`. -/
def endsWithChars (s e : List Char) : Bool := leadMatch e.reverse s.reverse

/-- `supported_extensions` of gui/utils.py line 21 (identical to
`ImageCompressor.supported_formats`, classes.py line 61). -/
def supported_extensions : List (List Char) :=
  [(".jpg").data, (".jpeg").data, (".png").data,
   (".heic").data, (".heif").data, (".avif").data]

/-- `s.lower().endswith(supported_extensions)`. -/
def isImageName (s : List Char) : Bool :=
  supported_extensions.any (fun e => endsWithChars (s.map lowerChar) e)

/-- The filesystem oracle: which paths are files, which are directories, and
for a directory the `(root, filename)` pairs its recursive walk yields. -/
structure FS where
  isFile : List Char → Bool
  isDir : List Char → Bool
  walkEntries : List Char → List (List Char × List Char)

/-- `os.path.join(root, file)`. -/
def pyJoin (root nm : List Char) : List Char := root ++ ('/' :: nm)

/-- The files collected from one directory by the `os.walk` loop of
`get_image_files_from_paths` (gui/utils.py lines 28-34): filenames filtered
by extension, joined to their root. -/
def walkImages (fs : FS) (dir : List Char) : List (List Char) :=
  ((fs.walkEntries dir).filter (fun rn => isImageName rn.2)).map (fun rn => pyJoin rn.1 rn.2)

/-- `get_image_files_from_paths` (gui/utils.py lines 10-36).  A path that is
neither an existing file nor a directory contributes nothing: there is no
error channel in the return type. -/
def get_image_files_from_paths (fs : FS) : List (List Char) → List (List Char)
  | [] => []
  | p :: rest =>
    (if fs.isFile p then (if isImageName p then [p] else [])
     else if fs.isDir p then walkImages fs p
     else [])
    ++ get_image_files_from_paths fs rest

/-- `input_path.strip(quote)` of classes.py line 115: remove quote characters
from both ends. -/
def stripQuotes (s : List Char) : List Char :=
  ((s.dropWhile (fun c => c = '"')).reverse.dropWhile (fun c => c = '"')).reverse

/-- What one `ImageCompressor.process_input` call does. -/
inductive CliAction
  | compressedFile (input output : List Char)
  | processedDirectory (dir : List Char)
  | pathNotFound
deriving DecidableEq, Repr

/-- `ImageCompressor.process_input` (classes.py lines 107-127).  A
non-existing path is reported (`"Указанный путь не существует"`), modelled by
`CliAction.pathNotFound`.  `os.path.exists` is modelled as file-or-directory. -/
def process_input (fs : FS) (c : ImageCompressor) (raw : List Char) : Except PyErr CliAction :=
  let input := stripQuotes raw
  match lookupFormat c.output_format with
  | none => .error .keyErr
  | some extension =>
    if fs.isFile input ∨ fs.isDir input then
      if fs.isFile input then .ok (.compressedFile input (pyStem input ++ extension))
      else .ok (.processedDirectory input)
    else .ok .pathNotFound

/-! ## Binary64 floating point, for the progress percentage

`worker.py` line 144 computes `int(((i + 1) / total_files) * 100)` in Python
`float` (IEEE-754 binary64) arithmetic.  Both `int / int` and `float * int`
are correctly rounded (round to nearest, ties to even), and all values
involved are strictly positive normal numbers, so the computation is modelled
exactly: a positive double is a pair `(M, g)` of a mantissa `M ∈ [2^52, 2^53]`
and a binary exponent, denoting the rational `M * 2^g`. -/

/-- Fuelled binary logarithm (`Nat.log2` is not kernel-reducible). -/
def nlog2 : Nat → Nat → Nat
  | 0, _ => 0
  | fuel + 1, n => if n ≤ 1 then 0 else nlog2 fuel (n / 2) + 1

/-- `natLog2 n` is the floor of the binary logarithm of `n` (for `1 ≤ n`). -/
def natLog2 (n : Nat) : Nat := nlog2 n n

/-- Round `num / den` to the nearest integer, ties to even. -/
def roundNE (num den : Nat) : Nat :=
  if 2 * (num % den) < den then num / den
  else if den < 2 * (num % den) then num / den + 1
  else if num / den % 2 = 0 then num / den else num / den + 1

/-- The binary64 value nearest to `a / b` (`1 ≤ a`, `1 ≤ b`), as a mantissa /
exponent pair `(M, g)` denoting `M * 2^g` with `2^52 ≤ M ≤ 2^53`. -/
def floatOfRatPos (a b : Nat) : Nat × Int :=
  let s := natLog2 b + 2
  let ep := natLog2 (a * 2 ^ s / b)
  ((if ep ≤ s + 52 then roundNE (a * 2 ^ (s + 52 - ep)) b
    else roundNE a (b * 2 ^ (ep - s - 52))),
   (ep : Int) - (s : Int) - 52)

/-- The binary exponent `floor (log2 (a / b))` chosen by `floatOfRatPos`. -/
def eExp (a b : Nat) : Int :=
  (natLog2 (a * 2 ^ (natLog2 b + 2) / b) : Int) - ((natLog2 b + 2 : Nat) : Int)

/-- `2 ^ e` over ℚ for an integer `e`, kept kernel-computable. -/
def pow2z (e : Int) : ℚ :=
  if 0 ≤ e then ((2 ^ e.toNat : Nat) : ℚ) else 1 / ((2 ^ (-e).toNat : Nat) : ℚ)

/-- The rational value denoted by a mantissa / exponent pair. -/
def valMG (p : Nat × Int) : ℚ := (p.1 : ℚ) * pow2z p.2

/-- Python float division of two positive integers: correctly rounded. -/
def pyDiv (k n : Nat) : Nat × Int := floatOfRatPos k n

/-- Python float multiplication of a positive double by the integer 100:
the exact product re-rounded to binary64. -/
def pyMul100 (p : Nat × Int) : Nat × Int :=
  if 0 ≤ p.2 then floatOfRatPos (p.1 * 100 * 2 ^ p.2.toNat) 1
  else floatOfRatPos (p.1 * 100) (2 ^ (-p.2).toNat)

/-- Python `int()` truncation of a positive double (floor). -/
def pyTrunc (p : Nat × Int) : Nat :=
  if 0 ≤ p.2 then p.1 * 2 ^ p.2.toNat else p.1 / 2 ^ (-p.2).toNat

/-- `int(((k) / n) * 100)` in Python float arithmetic (`worker.py` line 144,
with `k = i + 1` and `n = total_files`). -/
def pyProgress (k n : Nat) : Nat := pyTrunc (pyMul100 (pyDiv k n))

/-! ## The worker thread (gui/worker.py) -/

/-- The data of a `CompressionWorker` after `__init__` (worker.py lines
23-38); `files` is the already `set`-deduplicated `self.files`.
`avifAvailable` records whether the AVIF plugin is importable (module-level
`AVIF_AVAILABLE` of classes.py).  The `postfix` argument of the source is
called `postfixStr` here. -/
structure WorkerConfig where
  files : List PPath
  quality : Int
  format_type : List Char
  delete_original : Bool
  postfixStr : List Char
  avifAvailable : Bool

/-- The environment's behaviour for one task: the outcomes of the permission
check, the encoder call, the output-existence check, the two `stat` calls and
the `unlink` attempt (worker.py lines 89-135). -/
inductive TaskEnv
  | noWritePermission
  | encodeError
  | outputMissing
  | ok (original_size compressed_size : Nat) (unlinkOk : Bool)

/-- The observable events the worker emits (its Qt signals, with log
messages classified by which `emit` call produced them). -/
inductive Event
  | logDuplicates (n : Nat)
  | logProcessing (p : PPath)
  | logOutput (p : PPath)
  | logError (name : List Char)
  | logSuccess (inName outName : List Char)
  | logSavings (saved_bytes : Int)
  | logSizeIncreased (inName outName : List Char)
  | logDeleted (name : List Char)
  | logDeleteFailed (name : List Char)
  | fileProcessed (name : List Char)
  | progress (n : Nat)
  | logCritical
  | finished (successful errors : Nat)
deriving DecidableEq, Repr

/-- Output-path computation of one task (worker.py lines 68-83): look up the
target extension (`KeyError` if the format string is not a key), then apply
the collision policy: same extension (case-insensitively) and
`delete_original` false ⇒ insert the postfix before the extension, otherwise
`with_suffix`. -/
def computeOutputPath (cfg : WorkerConfig) (input : PPath) : Except PyErr PPath :=
  match lookupFormat cfg.format_type with
  | none => .error .keyErr
  | some extension =>
    let input_extension := (pySuffix input.name).map lowerChar
    let output_extension := extension.map lowerChar
    if input_extension = output_extension ∧ cfg.delete_original = false then
      .ok ⟨input.dir, pyStem input.name ++ cfg.postfixStr ++ extension⟩
    else
      .ok ⟨input.dir, pyStem input.name ++ extension⟩

/-- The source's branch `if saved_percent > 0` (worker.py line 107):
equivalent to `compressed < original` (lemma `savedPercentPos_iff` below),
stated here over the integer sizes so that runs evaluate by `decide`. -/
def savedPercentPos (original compressed : Nat) : Bool := decide (compressed < original)

/-- The events of the success branch of one task (worker.py lines 100-137):
savings log, optional deletion of the original (failure of which is only a
warning), then the `file_processed` signal. -/
def successEvents (cfg : WorkerConfig) (input output : PPath)
    (osz csz : Nat) (unlinkOk : Bool) : List Event :=
  (if savedPercentPos osz csz then
     [Event.logSuccess input.name output.name,
      Event.logSavings (get_savings_info (osz : Int) (csz : Int)).1]
   else [Event.logSizeIncreased input.name output.name])
  ++ (if cfg.delete_original = true ∧ input ≠ output then
        (if unlinkOk then [Event.logDeleted input.name] else [Event.logDeleteFailed input.name])
      else [])
  ++ [Event.fileProcessed input.name]

/-- One iteration of the task loop body inside the per-task `try` (worker.py
lines 67-141): returns whether `successful` was incremented, and the events
emitted.  Any failure (key error, permission, encode, missing output) is
caught at the task boundary and logged as a per-task error. -/
def processFile (cfg : WorkerConfig) (e : TaskEnv) (input : PPath) : Bool × List Event :=
  match computeOutputPath cfg input with
  | .error _ => (false, [.logError input.name])
  | .ok output =>
    match e with
    | .noWritePermission => (false, [.logProcessing input, .logOutput output, .logError input.name])
    | .encodeError => (false, [.logProcessing input, .logOutput output, .logError input.name])
    | .outputMissing => (false, [.logProcessing input, .logOutput output, .logError input.name])
    | .ok osz csz unlinkOk =>
      (true, [.logProcessing input, .logOutput output] ++ successEvents cfg input output osz csz unlinkOk)

/-- Whether the task for environment `e` succeeds under `cfg` (format key
present and no per-task failure). -/
def taskSucceeds (cfg : WorkerConfig) (e : TaskEnv) : Bool :=
  (lookupFormat cfg.format_type).isSome &&
    (match e with | .ok _ _ _ => true | _ => false)

/-- Whether `self.is_cancelled` reads `true` at the top of iteration `i`:
`cancelAt = some c` means the flag was observed set from iteration `c` on. -/
def cancelObserved (cancelAt : Option Nat) (i : Nat) : Bool :=
  match cancelAt with
  | none => false
  | some c => c ≤ i

/-- The `for i, file_path in enumerate(unique_files)` loop (worker.py lines
63-145): returns the number of successes, the number of errors, and the
emitted events.  The cancellation flag is checked before each task; a
progress event is emitted after each processed task, failed or not. -/
def runLoop (cfg : WorkerConfig) (env : Nat → TaskEnv) (cancelAt : Option Nat)
    (total : Nat) : List PPath → Nat → Nat × Nat × List Event
  | [], _ => (0, 0, [])
  | f :: rest, i =>
    if cancelObserved cancelAt i then (0, 0, [])
    else
      let pr := processFile cfg (env i) f
      let r := runLoop cfg env cancelAt total rest (i + 1)
      ((if pr.1 then 1 else 0) + r.1,
       (if pr.1 then 0 else 1) + r.2.1,
       pr.2 ++ [Event.progress (pyProgress (i + 1) total)] ++ r.2.2)

/-- The duplicate check of `run` (worker.py lines 46-52): the worker counts
duplicates of `self.files` a second time (after `__init__` already applied
`list(set(...))`) and logs the count only when it is non-zero. -/
def workerDuplicatesReported [DecidableEq α] (selfFiles : List α) : Option Nat :=
  let uniq := dedupFirst selfFiles
  if selfFiles.length ≠ uniq.length then some (selfFiles.length - uniq.length) else none

/-- Result of one `CompressionWorker.run`: the two counters and the events. -/
structure RunResult where
  successful : Nat
  errors : Nat
  events : List Event
deriving DecidableEq, Repr

/-- `CompressionWorker.run` (worker.py lines 40-150): re-deduplicate,
optionally log the duplicate count, create the `ImageCompressor` (a failure
there is the outer `except`, logged as critical), run the task loop, and
always emit `finished_processing(successful, errors)`. -/
def runWorker (cfg : WorkerConfig) (env : Nat → TaskEnv) (cancelAt : Option Nat) : RunResult :=
  let uniq := dedupFirst cfg.files
  let total := uniq.length
  let dupEvents : List Event :=
    match workerDuplicatesReported cfg.files with
    | some n => [.logDuplicates n]
    | none => []
  match ImageCompressor.init cfg.quality cfg.format_type cfg.avifAvailable with
  | .error _ => ⟨0, 0, dupEvents ++ [.logCritical, .finished 0 0]⟩
  | .ok _ =>
    let r := runLoop cfg env cancelAt total uniq 0
    ⟨r.1, r.2.1, dupEvents ++ r.2.2 ++ [.finished r.1 r.2.1]⟩

/-- Whether `ImageCompressor(...)` construction in `run` succeeds. -/
def initOk (cfg : WorkerConfig) : Bool :=
  match ImageCompressor.init cfg.quality cfg.format_type cfg.avifAvailable with
  | .ok _ => true
  | .error _ => false

/-- The value carried by a progress event, if the event is one. -/
def Event.progressVal : Event → Option Nat
  | .progress n => some n
  | _ => none

/-- The progress percentages of an event trace, in emission order. -/
def progressValues (evs : List Event) : List Nat := evs.filterMap Event.progressVal

/-- Is this event a per-task error log (worker.py line 141)? -/
def isErrLogEv : Event → Bool
  | .logError _ => true
  | _ => false

/-- Is this event a `file_processed` signal (worker.py line 137)? -/
def isProcessedEv : Event → Bool
  | .fileProcessed _ => true
  | _ => false

/-! ## The GUI side (gui/main_window.py) -/

/-- What the GUI's `compression_finished` receives. -/
structure GuiResult where
  successful : Nat
  errors : Nat
  cancelled : Bool
deriving DecidableEq, Repr

/-- `MainWindow.stop_compression` (main_window.py lines 225-231): after
cancelling and joining the worker it reports `compression_finished(0, 0,
cancelled=True)` — the counts are zeroed, not the worker's partial counts. -/
def stop_compression_result : GuiResult := ⟨0, 0, true⟩

/-- The duplicate metric of `MainWindow.start_compression` (main_window.py
lines 200-201): `len(files_to_process) - len(unique_files)`. -/
def gui_duplicate_count [DecidableEq α] (files : List α) : Nat :=
  files.length - (dedupFirst files).length

/-- Decidability of the `list(set(...))` admissibility predicate. -/
instance instDecIsPySetList [DecidableEq α] (xs ys : List α) : Decidable (IsPySetList xs ys) :=
  decidable_of_iff (ys.Nodup ∧ (∀ a ∈ ys, a ∈ xs) ∧ (∀ a ∈ xs, a ∈ ys)) Iff.rfl

/-! # Lemmas -/

/-! ## Names and deduplication -/

/-- `stem + suffix` reassembles the file name. -/
theorem pyStem_append_pySuffix (name : List Char) : pyStem name ++ pySuffix name = name := by
  unfold pyStem pySuffix pySplitName
  cases h : lastDotIdx name with
  | none => simp
  | some i =>
    by_cases hc : 0 < i ∧ i + 1 < name.length
    · simp [hc, List.take_append_drop]
    · simp [hc]

theorem dedupFirstAux_sublist [DecidableEq α] (l : List α) :
    ∀ seen, (dedupFirstAux seen l).Sublist l := by
  induction l with
  | nil => intro seen; simp [dedupFirstAux]
  | cons x xs ih =>
    intro seen
    by_cases h : x ∈ seen
    · simp only [dedupFirstAux, if_pos h]
      exact (ih seen).trans (List.sublist_cons_self x xs)
    · simp only [dedupFirstAux, if_neg h]
      exact (ih (x :: seen)).cons₂ x

theorem mem_dedupFirstAux [DecidableEq α] (l : List α) :
    ∀ (seen : List α) (a : α), a ∈ dedupFirstAux seen l ↔ a ∈ l ∧ a ∉ seen := by
  induction l with
  | nil => intro seen a; simp [dedupFirstAux]
  | cons x xs ih =>
    intro seen a
    by_cases h : x ∈ seen <;> by_cases hax : a = x <;>
      simp [dedupFirstAux, h, ih, hax]

theorem nodup_dedupFirstAux [DecidableEq α] (l : List α) :
    ∀ seen, (dedupFirstAux seen l).Nodup := by
  induction l with
  | nil => intro seen; simp [dedupFirstAux]
  | cons x xs ih =>
    intro seen
    by_cases h : x ∈ seen
    · simpa [dedupFirstAux, h] using ih seen
    · simp only [dedupFirstAux, if_neg h]
      refine List.nodup_cons.mpr ⟨?_, ih (x :: seen)⟩
      intro hx
      exact ((mem_dedupFirstAux xs (x :: seen) x).mp hx).2 (List.mem_cons_self x seen)

/-- `dict.fromkeys` keeps a subsequence of the input. -/
theorem dedupFirst_sublist [DecidableEq α] (l : List α) : (dedupFirst l).Sublist l :=
  dedupFirstAux_sublist l []

/-- `dict.fromkeys` has no duplicates. -/
theorem dedupFirst_nodup [DecidableEq α] (l : List α) : (dedupFirst l).Nodup :=
  nodup_dedupFirstAux l []

/-- `dict.fromkeys` keeps exactly the elements of the input. -/
theorem mem_dedupFirst [DecidableEq α] (l : List α) (a : α) :
    a ∈ dedupFirst l ↔ a ∈ l := by
  rw [dedupFirst, mem_dedupFirstAux]
  simp

theorem dedupFirstAux_eq_self [DecidableEq α] (l : List α) :
    ∀ seen, l.Nodup → (∀ a ∈ l, a ∉ seen) → dedupFirstAux seen l = l := by
  induction l with
  | nil => intro seen _ _; rfl
  | cons x xs ih =>
    intro seen hnd hdisj
    have hx : x ∉ seen := hdisj x (List.mem_cons_self x xs)
    rw [dedupFirstAux, if_neg hx, ih (x :: seen) (List.nodup_cons.mp hnd).2]
    intro a ha hmem
    rcases List.mem_cons.mp hmem with rfl | hmem
    · exact (List.nodup_cons.mp hnd).1 ha
    · exact hdisj a (List.mem_cons_of_mem x ha) hmem

/-- On a list without duplicates, `dict.fromkeys` is the identity. -/
theorem dedupFirst_eq_self [DecidableEq α] (l : List α) (h : l.Nodup) : dedupFirst l = l :=
  dedupFirstAux_eq_self l [] h (by simp)

/-- The number of survivors of `dict.fromkeys` is the number of distinct
elements of the input. -/
theorem dedupFirst_length [DecidableEq α] (l : List α) :
    (dedupFirst l).length = l.toFinset.card := by
  have hfs : (dedupFirst l).toFinset = l.toFinset := by
    ext a
    simp [List.mem_toFinset, mem_dedupFirst]
  calc (dedupFirst l).length = (dedupFirst l).toFinset.card :=
        (List.toFinset_card_of_nodup (dedupFirst_nodup l)).symm
    _ = l.toFinset.card := by rw [hfs]

/-! ## Savings -/

/-- The engine branch `savedPercentPos` agrees with the source condition
`saved_percent > 0` of worker.py line 107. -/
theorem savedPercentPos_iff (osz csz : Nat) :
    savedPercentPos osz csz = true ↔ 0 < (get_savings_info (osz : Int) (csz : Int)).2 := by
  unfold savedPercentPos get_savings_info
  by_cases h : (0 : Int) < (osz : Int)
  · simp only [if_pos h]
    constructor
    · intro hlt
      have hc : (csz : Int) < (osz : Int) := by exact_mod_cast of_decide_eq_true hlt
      have hnum : (0 : ℚ) < ((osz : Int) - (csz : Int) : Int) := by
        have : (0 : Int) < (osz : Int) - (csz : Int) := by omega
        exact_mod_cast this
      have hden : (0 : ℚ) < ((osz : Int) : ℚ) := by exact_mod_cast h
      positivity
    · intro hpos
      by_contra hle
      have hge : (osz : Int) ≤ (csz : Int) := by
        have := of_decide_eq_false (Bool.not_eq_true _ ▸ hle)
        omega
      have hnum : (((osz : Int) - (csz : Int) : Int) : ℚ) ≤ 0 := by
        have : (osz : Int) - (csz : Int) ≤ 0 := by omega
        exact_mod_cast this
      have hden : (0 : ℚ) < ((osz : Int) : ℚ) := by exact_mod_cast h
      have : ((((osz : Int) - (csz : Int) : Int) : ℚ) / ((osz : Int) : ℚ)) * 100 ≤ 0 := by
        apply mul_nonpos_of_nonpos_of_nonneg
        · exact div_nonpos_of_nonpos_of_nonneg hnum (le_of_lt hden)
        · norm_num
      simp only at hpos
      linarith
  · have hosz : osz = 0 := by omega
    subst hosz
    simp

/-! ## Binary64 rounding: correctness of the helpers -/

theorem nlog2_spec : ∀ (fuel n : Nat), 1 ≤ n → n ≤ fuel →
    2 ^ nlog2 fuel n ≤ n ∧ n < 2 ^ (nlog2 fuel n + 1) := by
  intro fuel
  induction fuel with
  | zero => intro n h1 h2; omega
  | succ fuel ih =>
    intro n h1 h2
    by_cases h : n ≤ 1
    · have hn : n = 1 := le_antisymm h h1
      subst hn
      simp [nlog2]
    · have hlt : 1 < n := by omega
      have hn2 : 1 ≤ n / 2 := by omega
      have hf : n / 2 ≤ fuel := by omega
      obtain ⟨l, u⟩ := ih (n / 2) hn2 hf
      rw [show nlog2 (fuel + 1) n = nlog2 fuel (n / 2) + 1 by rw [nlog2, if_neg h]]
      constructor
      · have h2l : 2 * 2 ^ nlog2 fuel (n / 2) ≤ 2 * (n / 2) := by omega
        calc 2 ^ (nlog2 fuel (n / 2) + 1) = 2 * 2 ^ nlog2 fuel (n / 2) := by ring
          _ ≤ 2 * (n / 2) := h2l
          _ ≤ n := by omega
      · have h2u : 2 * (n / 2) + 2 ≤ 2 * 2 ^ (nlog2 fuel (n / 2) + 1) := by omega
        calc n < 2 * (n / 2) + 2 := by omega
          _ ≤ 2 * 2 ^ (nlog2 fuel (n / 2) + 1) := h2u
          _ = 2 ^ (nlog2 fuel (n / 2) + 1 + 1) := by ring

/-- `natLog2` is the floor of the binary logarithm. -/
theorem natLog2_spec (n : Nat) (h : 1 ≤ n) :
    2 ^ natLog2 n ≤ n ∧ n < 2 ^ (natLog2 n + 1) :=
  nlog2_spec n n h le_rfl

/-- Uniqueness of the binary logarithm. -/
theorem natLog2_eq_of (n e : Nat) (h1 : 2 ^ e ≤ n) (h2 : n < 2 ^ (e + 1)) :
    natLog2 n = e := by
  have hn : 1 ≤ n := le_trans Nat.one_le_two_pow h1
  obtain ⟨l, u⟩ := natLog2_spec n hn
  rcases Nat.lt_trichotomy (natLog2 n) e with h | h | h
  · have : 2 ^ (natLog2 n + 1) ≤ 2 ^ e := Nat.pow_le_pow_right (by norm_num) h
    omega
  · exact h
  · have : 2 ^ (e + 1) ≤ 2 ^ natLog2 n := Nat.pow_le_pow_right (by norm_num) h
    omega

theorem natLog2_two_pow (k : Nat) : natLog2 (2 ^ k) = k :=
  natLog2_eq_of (2 ^ k) k le_rfl (Nat.pow_lt_pow_right (by norm_num) (by omega))

/-- The rounded quotient is at least the floor. -/
theorem roundNE_ge_div (num den : Nat) : num / den ≤ roundNE num den := by
  unfold roundNE
  split
  · exact le_rfl
  · split
    · omega
    · split <;> omega

/-- The rounded quotient is at most the floor plus one. -/
theorem roundNE_le_div_succ (num den : Nat) : roundNE num den ≤ num / den + 1 := by
  unfold roundNE
  split
  · omega
  · split
    · omega
    · split <;> omega

/-- Upper bound transfer: `num/den < K` gives `roundNE num den ≤ K`. -/
theorem roundNE_le (num den K : Nat) (hden : 0 < den) (h : num < K * den) :
    roundNE num den ≤ K := by
  have hfl : num / den < K := (Nat.div_lt_iff_lt_mul hden).mpr h
  have := roundNE_le_div_succ num den
  omega

/-- Lower bound transfer: `K ≤ num/den` gives `K ≤ roundNE num den`. -/
theorem le_roundNE (num den K : Nat) (hden : 0 < den) (h : K * den ≤ num) :
    K ≤ roundNE num den := by
  have hfl : K ≤ num / den := (Nat.le_div_iff_mul_le hden).mpr h
  have := roundNE_ge_div num den
  omega

/-- Exact division rounds to itself. -/
theorem roundNE_mul_cancel (q den : Nat) (hden : 0 < den) :
    roundNE (den * q) den = q := by
  unfold roundNE
  have hmod : den * q % den = 0 := Nat.mul_mod_right den q
  have hdiv : den * q / den = q := Nat.mul_div_cancel_left q hden
  rw [hmod, hdiv]
  simp [hden]

/-- Round-to-nearest-even is monotone across denominators. -/
theorem roundNE_mono (a b c d : Nat) (hb : 0 < b) (hd : 0 < d)
    (h : a * d ≤ c * b) : roundNE a b ≤ roundNE c d := by
  have hfl : a / b ≤ c / d := by
    rw [Nat.le_div_iff_mul_le hd]
    have h1 : a / b * b ≤ a := Nat.div_mul_le_self a b
    have h2 : a / b * d * b = a / b * b * d := by ring
    have h3 : a / b * b * d ≤ a * d := Nat.mul_le_mul_right d h1
    have h4 : a / b * d * b ≤ c * b := by omega
    exact Nat.le_of_mul_le_mul_right h4 hb
  rcases Nat.lt_or_ge (a / b) (c / d) with hlt | hge
  · have := roundNE_le_div_succ a b
    have := roundNE_ge_div c d
    omega
  · have heq : a / b = c / d := le_antisymm hfl hge
    -- same floor; compare fractional parts
    have ha : b * (a / b) + a % b = a := Nat.div_add_mod a b
    have hc : d * (c / d) + c % d = c := Nat.div_add_mod c d
    have key : a % b * d ≤ c % d * b := by
      have e1 : (b * (a / b) + a % b) * d ≤ (d * (c / d) + c % d) * b := by
        rw [ha, hc]; exact h
      have e2 : b * (a / b) * d + a % b * d ≤ d * (c / d) * b + c % d * b := by
        calc b * (a / b) * d + a % b * d = (b * (a / b) + a % b) * d := by ring
          _ ≤ (d * (c / d) + c % d) * b := e1
          _ = d * (c / d) * b + c % d * b := by ring
      have e3 : b * (a / b) * d = d * (c / d) * b := by rw [heq]; ring
      omega
    -- if the first rounds down, done
    rcases Nat.lt_or_ge (2 * (a % b)) b with h1 | h1
    · rw [show roundNE a b = a / b by unfold roundNE; rw [if_pos h1]]
      have := roundNE_ge_div c d
      omega
    · -- first does not round down: b ≤ 2 * (a % b); transfer to second
      have hnd : d ≤ 2 * (c % d) := by
        have t1 : b * d ≤ 2 * (a % b) * d := Nat.mul_le_mul_right d h1
        have t2 : 2 * (a % b) * d ≤ 2 * (c % d) * b := by
          calc 2 * (a % b) * d = 2 * (a % b * d) := by ring
            _ ≤ 2 * (c % d * b) := by omega
            _ = 2 * (c % d) * b := by ring
        have t3 : d * b ≤ 2 * (c % d) * b := by
          calc d * b = b * d := by ring
            _ ≤ 2 * (c % d) * b := le_trans t1 t2
        exact Nat.le_of_mul_le_mul_right t3 hb
      rcases Nat.lt_or_ge b (2 * (a % b)) with h2 | h2
      · -- first rounds up strictly
        have hnds : d < 2 * (c % d) := by
          have t1 : b * d < 2 * (a % b) * d := (Nat.mul_lt_mul_right hd).mpr h2
          have t2 : 2 * (a % b) * d ≤ 2 * (c % d) * b := by
            have t0 : 2 * (a % b * d) ≤ 2 * (c % d * b) := by omega
            calc 2 * (a % b) * d = 2 * (a % b * d) := by ring
              _ ≤ 2 * (c % d * b) := t0
              _ = 2 * (c % d) * b := by ring
          have t3 : d * b < 2 * (c % d) * b := by
            have hcomm : d * b = b * d := Nat.mul_comm d b
            omega
          exact lt_of_mul_lt_mul_right t3 (Nat.zero_le b)
        have r1 : roundNE a b ≤ a / b + 1 := roundNE_le_div_succ a b
        have r2 : roundNE c d = c / d + 1 := by
          unfold roundNE
          rw [if_neg (by omega), if_pos hnds]
        omega
      · -- tie in the first: b = 2 * (a % b)
        have htie : b = 2 * (a % b) := by omega
        rcases Nat.lt_or_ge d (2 * (c % d)) with h3 | h3
        · have r1 : roundNE a b ≤ a / b + 1 := roundNE_le_div_succ a b
          have r2 : roundNE c d = c / d + 1 := by
            unfold roundNE
            rw [if_neg (by omega), if_pos h3]
          omega
        · -- tie in both: equal floors, same parity decision
          have htied : d = 2 * (c % d) := by omega
          have r1 : roundNE a b = (if a / b % 2 = 0 then a / b else a / b + 1) := by
            unfold roundNE
            rw [if_neg (by omega), if_neg (by omega)]
          have r2 : roundNE c d = (if c / d % 2 = 0 then c / d else c / d + 1) := by
            unfold roundNE
            rw [if_neg (by omega), if_neg (by omega)]
          rw [r1, r2, heq]

theorem pow2z_eq_zpow (e : Int) : pow2z e = (2:ℚ) ^ e := by
  unfold pow2z
  by_cases h : 0 ≤ e
  · rw [if_pos h]
    push_cast
    rw [← zpow_natCast]
    congr 1
    omega
  · rw [if_neg h]
    push_cast
    rw [one_div, ← zpow_natCast, ← zpow_neg]
    congr 1
    omega

theorem pow2z_pos (e : Int) : 0 < pow2z e := by
  rw [pow2z_eq_zpow]; positivity

/-- `eExp` is the floor of the binary logarithm of `a / b`. -/
theorem eExp_bounds (a b : Nat) (ha : 1 ≤ a) (hb : 1 ≤ b) :
    (2:ℚ) ^ eExp a b ≤ (a : ℚ) / (b : ℚ) ∧ (a : ℚ) / (b : ℚ) < (2:ℚ) ^ (eExp a b + 1) := by
  have hblt : b < 2 ^ (natLog2 b + 2) := by
    have h1 := (natLog2_spec b hb).2
    have h2 : 2 ^ (natLog2 b + 1) ≤ 2 ^ (natLog2 b + 2) :=
      Nat.pow_le_pow_right (by norm_num) (by omega)
    omega
  have hAb : b ≤ a * 2 ^ (natLog2 b + 2) := by
    have h1 : 2 ^ (natLog2 b + 2) ≤ a * 2 ^ (natLog2 b + 2) :=
      Nat.le_mul_of_pos_left _ (by omega)
    omega
  have hm1 : 1 ≤ a * 2 ^ (natLog2 b + 2) / b := (Nat.one_le_div_iff (by omega)).mpr hAb
  obtain ⟨hl, hu⟩ := natLog2_spec (a * 2 ^ (natLog2 b + 2) / b) hm1
  have N1 : 2 ^ natLog2 (a * 2 ^ (natLog2 b + 2) / b) * b ≤ a * 2 ^ (natLog2 b + 2) := by
    have h1 : 2 ^ natLog2 (a * 2 ^ (natLog2 b + 2) / b) * b
        ≤ a * 2 ^ (natLog2 b + 2) / b * b :=
      Nat.mul_le_mul_right b hl
    have h2 : a * 2 ^ (natLog2 b + 2) / b * b ≤ a * 2 ^ (natLog2 b + 2) :=
      Nat.div_mul_le_self _ b
    omega
  have N2 : a * 2 ^ (natLog2 b + 2) < 2 ^ (natLog2 (a * 2 ^ (natLog2 b + 2) / b) + 1) * b := by
    have hdm := Nat.div_add_mod (a * 2 ^ (natLog2 b + 2)) b
    have hmod : a * 2 ^ (natLog2 b + 2) % b < b := Nat.mod_lt _ (by omega)
    have h1 : a * 2 ^ (natLog2 b + 2) < (a * 2 ^ (natLog2 b + 2) / b + 1) * b := by
      have hx : (a * 2 ^ (natLog2 b + 2) / b + 1) * b
          = b * (a * 2 ^ (natLog2 b + 2) / b) + b := by ring
      omega
    have h2 : (a * 2 ^ (natLog2 b + 2) / b + 1) * b
        ≤ 2 ^ (natLog2 (a * 2 ^ (natLog2 b + 2) / b) + 1) * b :=
      Nat.mul_le_mul_right b (by omega)
    omega
  have hbq : (0:ℚ) < (b:ℚ) := by exact_mod_cast (by omega : 0 < b)
  have hsq : (0:ℚ) < ((2 ^ (natLog2 b + 2) : Nat) : ℚ) := by
    exact_mod_cast Nat.pos_pow_of_pos _ (by norm_num)
  constructor
  · have hrw : (2:ℚ) ^ eExp a b
        = ((2 ^ natLog2 (a * 2 ^ (natLog2 b + 2) / b) : Nat) : ℚ)
          / ((2 ^ (natLog2 b + 2) : Nat) : ℚ) := by
      unfold eExp
      rw [zpow_sub₀ (by norm_num : (2:ℚ) ≠ 0), zpow_natCast, zpow_natCast]
      push_cast
      ring
    rw [hrw, div_le_div_iff hsq hbq]
    push_cast
    exact_mod_cast N1
  · have hrw : (2:ℚ) ^ (eExp a b + 1)
        = ((2 ^ (natLog2 (a * 2 ^ (natLog2 b + 2) / b) + 1) : Nat) : ℚ)
          / ((2 ^ (natLog2 b + 2) : Nat) : ℚ) := by
      unfold eExp
      rw [show (natLog2 (a * 2 ^ (natLog2 b + 2) / b) : Int)
            - ((natLog2 b + 2 : Nat) : Int) + 1
          = ((natLog2 (a * 2 ^ (natLog2 b + 2) / b) + 1 : Nat) : Int)
            - ((natLog2 b + 2 : Nat) : Int) by push_cast; ring]
      rw [zpow_sub₀ (by norm_num : (2:ℚ) ≠ 0), zpow_natCast, zpow_natCast]
      push_cast
      ring
    rw [hrw, div_lt_div_iff hbq hsq]
    push_cast
    exact_mod_cast N2

/-- Characterization of `floatOfRatPos`: it rounds
`(a / b) * 2 ^ (52 - eExp a b)` to the nearest integer (ties to even) and
scales back. -/
theorem floatOfRatPos_eq (a b : Nat) (ha : 1 ≤ a) (hb : 1 ≤ b) :
    ∃ num den : Nat, 0 < den ∧ 0 < num ∧
      floatOfRatPos a b = (roundNE num den, eExp a b - 52) ∧
      (num : ℚ) / (den : ℚ) = ((a : ℚ) / (b : ℚ)) * (2:ℚ) ^ ((52 : ℤ) - eExp a b) := by
  have heE : eExp a b
      = (natLog2 (a * 2 ^ (natLog2 b + 2) / b) : Int) - ((natLog2 b + 2 : Nat) : Int) := rfl
  by_cases hcase : natLog2 (a * 2 ^ (natLog2 b + 2) / b) ≤ natLog2 b + 2 + 52
  · refine ⟨a * 2 ^ (natLog2 b + 2 + 52 - natLog2 (a * 2 ^ (natLog2 b + 2) / b)), b,
      by omega, by positivity, ?_, ?_⟩
    · have hpair : floatOfRatPos a b
          = (roundNE (a * 2 ^ (natLog2 b + 2 + 52 - natLog2 (a * 2 ^ (natLog2 b + 2) / b))) b,
             (natLog2 (a * 2 ^ (natLog2 b + 2) / b) : Int) - ((natLog2 b + 2 : Nat) : Int) - 52) := by
        have hz : floatOfRatPos a b
            = ((if natLog2 (a * 2 ^ (natLog2 b + 2) / b) ≤ natLog2 b + 2 + 52 then
                  roundNE (a * 2 ^ (natLog2 b + 2 + 52 - natLog2 (a * 2 ^ (natLog2 b + 2) / b))) b
                else
                  roundNE a (b * 2 ^ (natLog2 (a * 2 ^ (natLog2 b + 2) / b) - (natLog2 b + 2) - 52))),
               (natLog2 (a * 2 ^ (natLog2 b + 2) / b) : Int) - ((natLog2 b + 2 : Nat) : Int) - 52) := rfl
        rw [hz, if_pos hcase]
      rw [hpair, heE]
    · have hqe : (52 : ℤ) - eExp a b
          = ((natLog2 b + 2 + 52 - natLog2 (a * 2 ^ (natLog2 b + 2) / b) : Nat) : ℤ) := by
        rw [heE]; omega
      rw [hqe, zpow_natCast]
      push_cast
      field_simp
  · refine ⟨a, b * 2 ^ (natLog2 (a * 2 ^ (natLog2 b + 2) / b) - (natLog2 b + 2) - 52),
      by positivity, by omega, ?_, ?_⟩
    · have hpair : floatOfRatPos a b
          = (roundNE a (b * 2 ^ (natLog2 (a * 2 ^ (natLog2 b + 2) / b) - (natLog2 b + 2) - 52)),
             (natLog2 (a * 2 ^ (natLog2 b + 2) / b) : Int) - ((natLog2 b + 2 : Nat) : Int) - 52) := by
        have hz : floatOfRatPos a b
            = ((if natLog2 (a * 2 ^ (natLog2 b + 2) / b) ≤ natLog2 b + 2 + 52 then
                  roundNE (a * 2 ^ (natLog2 b + 2 + 52 - natLog2 (a * 2 ^ (natLog2 b + 2) / b))) b
                else
                  roundNE a (b * 2 ^ (natLog2 (a * 2 ^ (natLog2 b + 2) / b) - (natLog2 b + 2) - 52))),
               (natLog2 (a * 2 ^ (natLog2 b + 2) / b) : Int) - ((natLog2 b + 2 : Nat) : Int) - 52) := rfl
        rw [hz, if_neg hcase]
      rw [hpair, heE]
    · have hqe : (52 : ℤ) - eExp a b
          = -((natLog2 (a * 2 ^ (natLog2 b + 2) / b) - (natLog2 b + 2) - 52 : Nat) : ℤ) := by
        rw [heE]; omega
      rw [hqe, zpow_neg, zpow_natCast]
      push_cast
      field_simp

/-- The rounded value stays at least `2 ^ eExp`. -/
theorem floatOfRatPos_val_ge (a b : Nat) (ha : 1 ≤ a) (hb : 1 ≤ b) :
    (2:ℚ) ^ eExp a b ≤ valMG (floatOfRatPos a b) := by
  obtain ⟨num, den, hden, hnum, hpair, hq⟩ := floatOfRatPos_eq a b ha hb
  obtain ⟨hl, _⟩ := eExp_bounds a b ha hb
  have hdq : (0:ℚ) < (den:ℚ) := by exact_mod_cast hden
  have hval : (2:ℚ) ^ ((52:ℕ) : ℤ) ≤ (num : ℚ) / den := by
    rw [hq]
    calc (2:ℚ) ^ ((52:ℕ) : ℤ) = (2:ℚ) ^ (eExp a b) * (2:ℚ) ^ ((52:ℤ) - eExp a b) := by
          rw [← zpow_add₀ (by norm_num : (2:ℚ) ≠ 0)]
          congr 1
          ring
      _ ≤ ((a:ℚ)/b) * (2:ℚ) ^ ((52:ℤ) - eExp a b) :=
          mul_le_mul_of_nonneg_right hl (le_of_lt (by positivity))
  have hnat : 2 ^ 52 * den ≤ num := by
    rw [le_div_iff hdq] at hval
    rw [zpow_natCast] at hval
    exact_mod_cast hval
  have hM : 2 ^ 52 ≤ roundNE num den := le_roundNE num den (2 ^ 52) hden hnat
  rw [valMG, hpair]
  have h1 : ((2:ℚ) ^ (52:ℕ)) * pow2z (eExp a b - 52) = (2:ℚ) ^ eExp a b := by
    rw [pow2z_eq_zpow, ← zpow_natCast, ← zpow_add₀ (by norm_num : (2:ℚ) ≠ 0)]
    congr 1
    ring
  calc (2:ℚ) ^ eExp a b = ((2:ℚ) ^ (52:ℕ)) * pow2z (eExp a b - 52) := h1.symm
    _ ≤ ((roundNE num den : ℕ) : ℚ) * pow2z (eExp a b - 52) := by
        have : ((2:ℚ) ^ (52:ℕ)) ≤ ((roundNE num den : ℕ) : ℚ) := by exact_mod_cast hM
        exact mul_le_mul_of_nonneg_right this (le_of_lt (pow2z_pos _))

/-- The rounded value stays at most `2 ^ (eExp + 1)`. -/
theorem floatOfRatPos_val_le (a b : Nat) (ha : 1 ≤ a) (hb : 1 ≤ b) :
    valMG (floatOfRatPos a b) ≤ (2:ℚ) ^ (eExp a b + 1) := by
  obtain ⟨num, den, hden, hnum, hpair, hq⟩ := floatOfRatPos_eq a b ha hb
  obtain ⟨_, hu⟩ := eExp_bounds a b ha hb
  have hdq : (0:ℚ) < (den:ℚ) := by exact_mod_cast hden
  have hval : (num : ℚ) / den < (2:ℚ) ^ ((53:ℕ) : ℤ) := by
    rw [hq]
    calc ((a:ℚ)/b) * (2:ℚ) ^ ((52:ℤ) - eExp a b)
        < (2:ℚ) ^ (eExp a b + 1) * (2:ℚ) ^ ((52:ℤ) - eExp a b) :=
          mul_lt_mul_of_pos_right hu (by positivity)
      _ = (2:ℚ) ^ ((53:ℕ) : ℤ) := by
          rw [← zpow_add₀ (by norm_num : (2:ℚ) ≠ 0)]
          congr 1
          ring
  have hnat : num < 2 ^ 53 * den := by
    rw [div_lt_iff hdq] at hval
    rw [zpow_natCast] at hval
    exact_mod_cast hval
  have hM : roundNE num den ≤ 2 ^ 53 := roundNE_le num den (2 ^ 53) hden hnat
  rw [valMG, hpair]
  have h1 : ((2:ℚ) ^ (53:ℕ)) * pow2z (eExp a b - 52) = (2:ℚ) ^ (eExp a b + 1) := by
    rw [pow2z_eq_zpow, ← zpow_natCast, ← zpow_add₀ (by norm_num : (2:ℚ) ≠ 0)]
    congr 1
    ring
  calc ((roundNE num den : ℕ) : ℚ) * pow2z (eExp a b - 52)
      ≤ ((2:ℚ) ^ (53:ℕ)) * pow2z (eExp a b - 52) := by
        have : ((roundNE num den : ℕ) : ℚ) ≤ ((2:ℚ) ^ (53:ℕ)) := by exact_mod_cast hM
        exact mul_le_mul_of_nonneg_right this (le_of_lt (pow2z_pos _))
    _ = (2:ℚ) ^ (eExp a b + 1) := h1

/-- The correctly rounded value of a positive rational is monotone in the
rational. -/
theorem valMG_floatOfRatPos_mono (a b c d : Nat) (ha : 1 ≤ a) (hb : 1 ≤ b)
    (hc : 1 ≤ c) (hd : 1 ≤ d) (h : a * d ≤ c * b) :
    valMG (floatOfRatPos a b) ≤ valMG (floatOfRatPos c d) := by
  obtain ⟨hl1, hu1⟩ := eExp_bounds a b ha hb
  obtain ⟨hl2, hu2⟩ := eExp_bounds c d hc hd
  have hq : ((a:ℚ)/b) ≤ (c:ℚ)/d := by
    rw [div_le_div_iff (by positivity) (by positivity)]
    exact_mod_cast h
  have he12 : eExp a b ≤ eExp c d := by
    by_contra hcon
    push_neg at hcon
    have hz : (2:ℚ) ^ (eExp c d + 1) ≤ (2:ℚ) ^ (eExp a b) :=
      zpow_le_zpow_right₀ (by norm_num) (by omega)
    linarith
  rcases eq_or_lt_of_le he12 with heq | hlt
  · -- equal exponents: same grid, use monotonicity of the rounding
    obtain ⟨n1, d1, hd1, hn1, hp1, hq1⟩ := floatOfRatPos_eq a b ha hb
    obtain ⟨n2, d2, hd2, hn2, hp2, hq2⟩ := floatOfRatPos_eq c d hc hd
    have harg : (n1:ℚ)/d1 ≤ (n2:ℚ)/d2 := by
      rw [hq1, hq2, heq]
      exact mul_le_mul_of_nonneg_right hq (le_of_lt (by positivity))
    have hnat : n1 * d2 ≤ n2 * d1 := by
      rw [div_le_div_iff (by exact_mod_cast hd1) (by exact_mod_cast hd2)] at harg
      exact_mod_cast harg
    have hM : roundNE n1 d1 ≤ roundNE n2 d2 := roundNE_mono n1 d1 n2 d2 hd1 hd2 hnat
    rw [valMG, valMG, hp1, hp2, heq]
    exact mul_le_mul_of_nonneg_right (by exact_mod_cast hM) (le_of_lt (pow2z_pos _))
  · -- strictly larger exponent: the two values are separated by a power of 2
    calc valMG (floatOfRatPos a b)
        ≤ (2:ℚ) ^ (eExp a b + 1) := floatOfRatPos_val_le a b ha hb
      _ ≤ (2:ℚ) ^ (eExp c d) := zpow_le_zpow_right₀ (by norm_num) (by omega)
      _ ≤ valMG (floatOfRatPos c d) := floatOfRatPos_val_ge c d hc hd

theorem valMG_nonneg (p : Nat × Int) : 0 ≤ valMG p :=
  mul_nonneg (Nat.cast_nonneg _) (le_of_lt (pow2z_pos _))

theorem floatOfRatPos_fst_pos (a b : Nat) (ha : 1 ≤ a) (hb : 1 ≤ b) :
    1 ≤ (floatOfRatPos a b).1 := by
  by_contra hcon
  push_neg at hcon
  have h0 : (floatOfRatPos a b).1 = 0 := by omega
  have hge := floatOfRatPos_val_ge a b ha hb
  rw [valMG, h0] at hge
  simp only [Nat.cast_zero, zero_mul] at hge
  have hpos : (0:ℚ) < (2:ℚ) ^ eExp a b := by positivity
  linarith

/-- `pyMul100` is the correctly rounded value of `valMG p * 100`. -/
theorem pyMul100_eq (p : Nat × Int) (hp : 1 ≤ p.1) :
    ∃ a b : Nat, 1 ≤ a ∧ 1 ≤ b ∧ pyMul100 p = floatOfRatPos a b ∧
      (a : ℚ) / (b : ℚ) = valMG p * 100 := by
  rcases p with ⟨M, g⟩
  simp only at hp
  by_cases hg : 0 ≤ g
  · refine ⟨M * 100 * 2 ^ g.toNat, 1,
      Nat.mul_pos (Nat.mul_pos hp (by norm_num)) (Nat.pos_pow_of_pos _ (by norm_num)),
      le_rfl, ?_, ?_⟩
    · simp [pyMul100, hg]
    · rw [valMG]
      simp only [pow2z, if_pos hg]
      push_cast
      ring
  · refine ⟨M * 100, 2 ^ (-g).toNat, Nat.mul_pos hp (by norm_num), Nat.one_le_two_pow, ?_, ?_⟩
    · simp [pyMul100, hg]
    · rw [valMG]
      simp only [pow2z, if_neg hg]
      push_cast
      field_simp

/-- `pyTrunc` is the floor of the denoted value. -/
theorem pyTrunc_eq_floor (p : Nat × Int) : pyTrunc p = Nat.floor (valMG p) := by
  rcases p with ⟨M, g⟩
  by_cases hg : 0 ≤ g
  · simp only [pyTrunc, valMG, pow2z, if_pos hg]
    rw [show ((M:ℚ) * ((2 ^ g.toNat : Nat) : ℚ)) = ((M * 2 ^ g.toNat : Nat) : ℚ) by push_cast; ring]
    exact (Nat.floor_natCast _).symm
  · simp only [pyTrunc, valMG, pow2z, if_neg hg]
    rw [show ((M:ℚ) * (1 / ((2 ^ (-g).toNat : Nat) : ℚ))) = (M:ℚ) / ((2 ^ (-g).toNat : Nat) : ℚ)
      by ring]
    exact (@Nat.floor_div_nat ℚ _ _ M (2 ^ (-g).toNat)).symm

/-- The emitted progress value is monotone in the completed-task count: float
division, float multiplication and truncation are all monotone. -/
theorem pyProgress_mono (k1 k2 n : Nat) (hk1 : 1 ≤ k1) (hk : k1 ≤ k2) (hn : 1 ≤ n) :
    pyProgress k1 n ≤ pyProgress k2 n := by
  have hv : valMG (pyDiv k1 n) ≤ valMG (pyDiv k2 n) :=
    valMG_floatOfRatPos_mono k1 n k2 n hk1 hn (by omega) hn (Nat.mul_le_mul_right n hk)
  have h1 : 1 ≤ (pyDiv k1 n).1 := floatOfRatPos_fst_pos k1 n hk1 hn
  have h2 : 1 ≤ (pyDiv k2 n).1 := floatOfRatPos_fst_pos k2 n (by omega) hn
  obtain ⟨a1, b1, ha1, hb1, hm1, hq1⟩ := pyMul100_eq (pyDiv k1 n) h1
  obtain ⟨a2, b2, ha2, hb2, hm2, hq2⟩ := pyMul100_eq (pyDiv k2 n) h2
  have hvm : valMG (pyMul100 (pyDiv k1 n)) ≤ valMG (pyMul100 (pyDiv k2 n)) := by
    rw [hm1, hm2]
    apply valMG_floatOfRatPos_mono a1 b1 a2 b2 ha1 hb1 ha2 hb2
    have hq : (a1:ℚ)/b1 ≤ (a2:ℚ)/b2 := by
      rw [hq1, hq2]
      linarith
    rw [div_le_div_iff (by exact_mod_cast hb1) (by exact_mod_cast hb2)] at hq
    exact_mod_cast hq
  rw [pyProgress, pyProgress, pyTrunc_eq_floor, pyTrunc_eq_floor]
  exact Nat.floor_mono hvm

/-- `n / n` is computed exactly as the double `1.0`. -/
theorem pyDiv_self (n : Nat) (hn : 1 ≤ n) : pyDiv n n = (2 ^ 52, -52) := by
  have hz : pyDiv n n
      = ((if natLog2 (n * 2 ^ (natLog2 n + 2) / n) ≤ natLog2 n + 2 + 52 then
            roundNE (n * 2 ^ (natLog2 n + 2 + 52 - natLog2 (n * 2 ^ (natLog2 n + 2) / n))) n
          else
            roundNE n (n * 2 ^ (natLog2 (n * 2 ^ (natLog2 n + 2) / n) - (natLog2 n + 2) - 52))),
         (natLog2 (n * 2 ^ (natLog2 n + 2) / n) : Int) - ((natLog2 n + 2 : Nat) : Int) - 52) := rfl
  have hs : natLog2 (n * 2 ^ (natLog2 n + 2) / n) = natLog2 n + 2 := by
    rw [Nat.mul_div_cancel_left _ (by omega : 0 < n)]
    exact natLog2_two_pow _
  rw [hz, hs, if_pos (by omega),
    show natLog2 n + 2 + 52 - (natLog2 n + 2) = 52 by omega,
    roundNE_mul_cancel (2 ^ 52) n (by omega)]
  congr 1
  push_cast
  ring

/-- The final progress value of an uncancelled run over `n ≥ 1` tasks is
exactly 100: `n / n` is exact, and so is `1.0 * 100`. -/
theorem pyProgress_self (n : Nat) (hn : 1 ≤ n) : pyProgress n n = 100 := by
  rw [pyProgress, pyDiv_self n hn]
  decide

/-! ## Engine structure lemmas -/

theorem computeOutputPath_none (cfg : WorkerConfig) (input : PPath)
    (h : lookupFormat cfg.format_type = none) :
    computeOutputPath cfg input = .error .keyErr := by
  unfold computeOutputPath
  rw [h]

theorem computeOutputPath_some (cfg : WorkerConfig) (input : PPath) (ext : List Char)
    (h : lookupFormat cfg.format_type = some ext) :
    computeOutputPath cfg input =
      .ok (if (pySuffix input.name).map lowerChar = ext.map lowerChar
              ∧ cfg.delete_original = false
           then ⟨input.dir, pyStem input.name ++ cfg.postfixStr ++ ext⟩
           else ⟨input.dir, pyStem input.name ++ ext⟩) := by
  unfold computeOutputPath
  rw [h]
  show (if (pySuffix input.name).map lowerChar = ext.map lowerChar
            ∧ cfg.delete_original = false
        then (Except.ok ⟨input.dir, pyStem input.name ++ cfg.postfixStr ++ ext⟩
          : Except PyErr PPath)
        else Except.ok ⟨input.dir, pyStem input.name ++ ext⟩)
      = Except.ok (if (pySuffix input.name).map lowerChar = ext.map lowerChar
            ∧ cfg.delete_original = false
        then ⟨input.dir, pyStem input.name ++ cfg.postfixStr ++ ext⟩
        else ⟨input.dir, pyStem input.name ++ ext⟩)
  by_cases hc : (pySuffix input.name).map lowerChar = ext.map lowerChar
      ∧ cfg.delete_original = false
  · rw [if_pos hc, if_pos hc]
  · rw [if_neg hc, if_neg hc]

/-- The success-branch events: no progress event, no error log, exactly one
`file_processed` signal. -/
theorem successEvents_counts (cfg : WorkerConfig) (input output : PPath)
    (osz csz : Nat) (unlinkOk : Bool) :
    progressValues (successEvents cfg input output osz csz unlinkOk) = []
    ∧ (successEvents cfg input output osz csz unlinkOk).countP isErrLogEv = 0
    ∧ (successEvents cfg input output osz csz unlinkOk).countP isProcessedEv = 1 := by
  unfold successEvents
  split_ifs <;>
    simp [progressValues, Event.progressVal, isErrLogEv, isProcessedEv,
      List.countP_cons, List.countP_append]

/-- Per-task bookkeeping: the success flag equals `taskSucceeds`, no progress
event is emitted inside a task, exactly one per-task error log appears for a
failed task, and exactly one `file_processed` signal for a successful one. -/
theorem processFile_spec (cfg : WorkerConfig) (e : TaskEnv) (input : PPath) :
    (processFile cfg e input).1 = taskSucceeds cfg e
    ∧ progressValues (processFile cfg e input).2 = []
    ∧ (processFile cfg e input).2.countP isErrLogEv = (if taskSucceeds cfg e then 0 else 1)
    ∧ (processFile cfg e input).2.countP isProcessedEv = (if taskSucceeds cfg e then 1 else 0) := by
  cases hfmt : lookupFormat cfg.format_type with
  | none =>
    have hts : taskSucceeds cfg e = false := by
      unfold taskSucceeds
      rw [hfmt]
      rfl
    unfold processFile
    rw [computeOutputPath_none cfg input hfmt, hts]
    simp [progressValues, Event.progressVal, isErrLogEv, isProcessedEv, List.countP_cons]
  | some ext =>
    cases e with
    | noWritePermission =>
      have hts : taskSucceeds cfg TaskEnv.noWritePermission = false := by
        unfold taskSucceeds
        rw [hfmt]
        rfl
      unfold processFile
      rw [computeOutputPath_some cfg input ext hfmt, hts]
      simp [progressValues, Event.progressVal, isErrLogEv, isProcessedEv, List.countP_cons]
    | encodeError =>
      have hts : taskSucceeds cfg TaskEnv.encodeError = false := by
        unfold taskSucceeds
        rw [hfmt]
        rfl
      unfold processFile
      rw [computeOutputPath_some cfg input ext hfmt, hts]
      simp [progressValues, Event.progressVal, isErrLogEv, isProcessedEv, List.countP_cons]
    | outputMissing =>
      have hts : taskSucceeds cfg TaskEnv.outputMissing = false := by
        unfold taskSucceeds
        rw [hfmt]
        rfl
      unfold processFile
      rw [computeOutputPath_some cfg input ext hfmt, hts]
      simp [progressValues, Event.progressVal, isErrLogEv, isProcessedEv, List.countP_cons]
    | ok osz csz unlinkOk =>
      have hts : taskSucceeds cfg (TaskEnv.ok osz csz unlinkOk) = true := by
        unfold taskSucceeds
        rw [hfmt]
        rfl
      obtain ⟨hp, he, hc⟩ := successEvents_counts cfg input
        (if (pySuffix input.name).map lowerChar = ext.map lowerChar
            ∧ cfg.delete_original = false
         then ⟨input.dir, pyStem input.name ++ cfg.postfixStr ++ ext⟩
         else ⟨input.dir, pyStem input.name ++ ext⟩) osz csz unlinkOk
      unfold processFile
      rw [computeOutputPath_some cfg input ext hfmt, hts]
      rw [progressValues] at hp
      refine ⟨rfl, ?_, ?_, ?_⟩
      · rw [progressValues, List.filterMap_append]
        exact List.append_eq_nil.mpr ⟨rfl, hp⟩
      · rw [List.countP_append, he]
        rfl
      · rw [List.countP_append, hc]
        rfl

theorem runLoop_nil (cfg : WorkerConfig) (env : Nat → TaskEnv) (cancelAt : Option Nat)
    (total i : Nat) : runLoop cfg env cancelAt total [] i = (0, 0, []) := rfl

theorem runLoop_cons (cfg : WorkerConfig) (env : Nat → TaskEnv) (cancelAt : Option Nat)
    (total : Nat) (f : PPath) (rest : List PPath) (i : Nat)
    (h : cancelObserved cancelAt i = false) :
    runLoop cfg env cancelAt total (f :: rest) i
      = ((if (processFile cfg (env i) f).1 then 1 else 0)
           + (runLoop cfg env cancelAt total rest (i + 1)).1,
         (if (processFile cfg (env i) f).1 then 0 else 1)
           + (runLoop cfg env cancelAt total rest (i + 1)).2.1,
         (processFile cfg (env i) f).2 ++ [Event.progress (pyProgress (i + 1) total)]
           ++ (runLoop cfg env cancelAt total rest (i + 1)).2.2) := by
  rw [runLoop, if_neg (by rw [h]; exact fun hc => Bool.noConfusion hc)]

theorem runLoop_cons_cancel (cfg : WorkerConfig) (env : Nat → TaskEnv) (cancelAt : Option Nat)
    (total : Nat) (f : PPath) (rest : List PPath) (i : Nat)
    (h : cancelObserved cancelAt i = true) :
    runLoop cfg env cancelAt total (f :: rest) i = (0, 0, []) := by
  rw [runLoop, if_pos h]

/-- With no cancellation and every task in the window succeeding, the loop
counts every task as a success and emits no error log. -/
theorem runLoop_all_ok (cfg : WorkerConfig) (env : Nat → TaskEnv) (total : Nat)
    (l : List PPath) : ∀ i : Nat,
    (∀ j, i ≤ j → j < i + l.length → taskSucceeds cfg (env j) = true) →
    (runLoop cfg env none total l i).1 = l.length
    ∧ (runLoop cfg env none total l i).2.1 = 0
    ∧ (runLoop cfg env none total l i).2.2.countP isErrLogEv = 0
    ∧ (runLoop cfg env none total l i).2.2.countP isProcessedEv = l.length := by
  induction l with
  | nil =>
    intro i _
    rw [runLoop_nil]
    simp
  | cons f rest ih =>
    intro i h
    have hi : taskSucceeds cfg (env i) = true := h i le_rfl (by simp)
    obtain ⟨h1, h2, h3, h4⟩ := ih (i + 1) (fun j hj1 hj2 => h j (by omega) (by simp at hj2 ⊢; omega))
    obtain ⟨hf, _, he, hp⟩ := processFile_spec cfg (env i) f
    rw [runLoop_cons cfg env none total f rest i rfl]
    rw [hf, hi]
    rw [hi] at he hp
    simp only [if_true] at he hp
    refine ⟨?_, ?_, ?_, ?_⟩ <;>
      simp [List.countP_append, List.countP_cons, isErrLogEv, isProcessedEv,
        h1, h2, h3, h4, he, hp] <;> omega

/-- With no cancellation and exactly one failing task in the window, the loop
records `length - 1` successes and one error, emits exactly one per-task
error log and `length - 1` `file_processed` signals. -/
theorem runLoop_one_fail (cfg : WorkerConfig) (env : Nat → TaskEnv) (total : Nat)
    (l : List PPath) : ∀ i jf : Nat,
    i ≤ jf → jf < i + l.length →
    taskSucceeds cfg (env jf) = false →
    (∀ j, i ≤ j → j < i + l.length → j ≠ jf → taskSucceeds cfg (env j) = true) →
    (runLoop cfg env none total l i).1 = l.length - 1
    ∧ (runLoop cfg env none total l i).2.1 = 1
    ∧ (runLoop cfg env none total l i).2.2.countP isErrLogEv = 1
    ∧ (runLoop cfg env none total l i).2.2.countP isProcessedEv = l.length - 1 := by
  induction l with
  | nil =>
    intro i jf h1 h2 _ _
    simp at h2
    omega
  | cons f rest ih =>
    intro i jf hj1 hj2 hjf hok
    obtain ⟨hf, _, he, hp⟩ := processFile_spec cfg (env i) f
    rw [runLoop_cons cfg env none total f rest i rfl]
    by_cases hij : i = jf
    · -- the head task fails, the rest all succeed
      subst hij
      obtain ⟨h1, h2, h3, h4⟩ := runLoop_all_ok cfg env total rest (i + 1)
        (fun j hja hjb => hok j (by omega) (by simp at hjb ⊢; omega) (by omega))
      rw [hf, hjf]
      rw [hjf] at he hp
      simp only [Bool.false_eq_true, if_false] at he hp
      refine ⟨?_, ?_, ?_, ?_⟩ <;>
        simp [List.countP_append, List.countP_cons, isErrLogEv, isProcessedEv,
          h1, h2, h3, h4, he, hp]
    · -- the head task succeeds; the failing one is in the tail
      have hi : taskSucceeds cfg (env i) = true := hok i le_rfl (by simp) (by omega)
      have hlen : jf < (i + 1) + rest.length := by simp at hj2; omega
      obtain ⟨h1, h2, h3, h4⟩ := ih (i + 1) jf (by omega) hlen hjf
        (fun j hja hjb hjc => hok j (by omega) (by simp; omega) hjc)
      have hrl : 1 ≤ rest.length := by omega
      rw [hf, hi]
      rw [hi] at he hp
      simp only [if_true] at he hp
      refine ⟨?_, ?_, ?_, ?_⟩ <;>
        simp [List.countP_append, List.countP_cons, isErrLogEv, isProcessedEv,
          h1, h2, h3, h4, he, hp] <;> omega

/-- The progress events of an uncancelled loop are exactly one per task, in
order, with the values of worker.py line 144. -/
theorem runLoop_progress (cfg : WorkerConfig) (env : Nat → TaskEnv) (total : Nat)
    (l : List PPath) : ∀ i : Nat,
    progressValues (runLoop cfg env none total l i).2.2
      = (List.range l.length).map (fun j => pyProgress (i + j + 1) total) := by
  induction l with
  | nil =>
    intro i
    rw [runLoop_nil]
    simp [progressValues]
  | cons f rest ih =>
    intro i
    obtain ⟨_, hpv, _, _⟩ := processFile_spec cfg (env i) f
    rw [runLoop_cons cfg env none total f rest i rfl]
    simp only [progressValues] at hpv ⊢
    rw [List.filterMap_append, List.filterMap_append, hpv]
    have hmid : List.filterMap Event.progressVal [Event.progress (pyProgress (i + 1) total)]
        = [pyProgress (i + 1) total] := rfl
    rw [hmid]
    have hih := ih (i + 1)
    simp only [progressValues] at hih
    rw [hih]
    simp only [List.length_cons, List.range_succ_eq_map, List.map_cons, List.map_map,
      List.nil_append, List.singleton_append, Nat.add_zero]
    congr 1
    apply List.map_congr_left
    intro j _
    simp only [Function.comp_apply]
    congr 1
    omega

/-- Cancellation truncates the loop: running with the flag observed from
iteration `c` on is the same as running without cancellation on the prefix of
tasks before `c`. -/
theorem runLoop_cancel (cfg : WorkerConfig) (env : Nat → TaskEnv) (total c : Nat)
    (l : List PPath) : ∀ i : Nat,
    runLoop cfg env (some c) total l i
      = runLoop cfg env none total (l.take (c - i)) i := by
  induction l with
  | nil =>
    intro i
    simp [runLoop_nil]
  | cons f rest ih =>
    intro i
    by_cases hci : c ≤ i
    · have h0 : c - i = 0 := by omega
      rw [h0]
      have hobs : cancelObserved (some c) i = true := by
        simp [cancelObserved]
        omega
      rw [runLoop_cons_cancel cfg env (some c) total f rest i hobs]
      rfl
    · have hobs : cancelObserved (some c) i = false := by
        simp [cancelObserved]
        omega
      have htake : (f :: rest).take (c - i) = f :: rest.take (c - i - 1) := by
        rw [show c - i = (c - i - 1) + 1 by omega]
        rfl
      rw [htake]
      rw [runLoop_cons cfg env (some c) total f rest i hobs]
      rw [runLoop_cons cfg env none total f (rest.take (c - i - 1)) i rfl]
      rw [ih (i + 1)]
      rw [show c - (i + 1) = c - i - 1 by omega]

/-- Unfolding of `runWorker` when the compressor construction succeeds. -/
theorem runWorker_eq (cfg : WorkerConfig) (env : Nat → TaskEnv) (cancelAt : Option Nat)
    (h : initOk cfg = true) :
    runWorker cfg env cancelAt
      = ⟨(runLoop cfg env cancelAt (dedupFirst cfg.files).length (dedupFirst cfg.files) 0).1,
         (runLoop cfg env cancelAt (dedupFirst cfg.files).length (dedupFirst cfg.files) 0).2.1,
         (match workerDuplicatesReported cfg.files with
          | some n => [Event.logDuplicates n]
          | none => [])
           ++ (runLoop cfg env cancelAt (dedupFirst cfg.files).length (dedupFirst cfg.files) 0).2.2
           ++ [Event.finished
                (runLoop cfg env cancelAt (dedupFirst cfg.files).length (dedupFirst cfg.files) 0).1
                (runLoop cfg env cancelAt (dedupFirst cfg.files).length
                  (dedupFirst cfg.files) 0).2.1]⟩ := by
  obtain ⟨comp, hinit⟩ : ∃ comp,
      ImageCompressor.init cfg.quality cfg.format_type cfg.avifAvailable = .ok comp := by
    unfold initOk at h
    cases hx : ImageCompressor.init cfg.quality cfg.format_type cfg.avifAvailable with
    | ok c => exact ⟨c, rfl⟩
    | error e => rw [hx] at h; simp at h
  unfold runWorker
  rw [hinit]

/-! # Claim theorems -/

/-- C10: the `quality` setter of `ImageCompressor` raises `TypeError` for a
non-integer value and `ValueError` for an integer outside `[0, 100]`, and in
both error cases the stored state is returned unchanged; an integer in
`[0, 100]` is stored exactly. -/
theorem C10_quality_setter_atomic (c : ImageCompressor) (n : Int) (tag : List Char) :
    quality_setter c (PyVal.nonInt tag) = (c, some PyErr.typeErr)
    ∧ ((n < 0 ∨ 100 < n) → quality_setter c (PyVal.int n) = (c, some PyErr.valueErr))
    ∧ (0 ≤ n → n ≤ 100 → quality_setter c (PyVal.int n)
        = (⟨n, c.output_format⟩, none)) := by
  refine ⟨rfl, ?_, ?_⟩
  · intro h
    simp only [quality_setter]
    rw [if_pos h]
  · intro h1 h2
    simp only [quality_setter]
    rw [if_neg (by omega)]

/-- C10 witness: invalid value 101 is rejected with the state untouched, a
non-integer raises `TypeError`, and the valid value 80 is stored. -/
theorem C10_quality_setter_atomic_witness :
    (((101 : Int) < 0 ∨ 100 < (101 : Int))
      ∧ quality_setter ⟨50, ("WEBP").data⟩ (PyVal.int 101)
          = (⟨50, ("WEBP").data⟩, some PyErr.valueErr))
    ∧ quality_setter ⟨50, ("WEBP").data⟩ (PyVal.nonInt (("half").data))
        = (⟨50, ("WEBP").data⟩, some PyErr.typeErr)
    ∧ ((0 : Int) ≤ 80 ∧ (80 : Int) ≤ 100
      ∧ quality_setter ⟨50, ("WEBP").data⟩ (PyVal.int 80)
          = (⟨80, ("WEBP").data⟩, none)) :=
  ⟨⟨by decide,
    (C10_quality_setter_atomic ⟨50, ("WEBP").data⟩ 101 (("half").data)).2.1 (by decide)⟩,
   (C10_quality_setter_atomic ⟨50, ("WEBP").data⟩ 101 (("half").data)).1,
   by decide, by decide,
   (C10_quality_setter_atomic ⟨50, ("WEBP").data⟩ 80 (("half").data)).2.2
     (by decide) (by decide)⟩

/-- C7: for every completed task, `savedBytes = inputSize - outputSize` and
`savedPercent = savedBytes / inputSize * 100`, with `savedPercent = 0` when
`inputSize = 0`; the task is a success regardless of the sign of the savings,
and the instance 1000 / 400 gives (600, 60.0). -/
theorem C7_savings (a b : Nat) (cfg : WorkerConfig) (p : PPath) (unlinkOk : Bool)
    (hfmt : (lookupFormat cfg.format_type).isSome = true) :
    (get_savings_info (a : Int) (b : Int)).1 = (a : Int) - (b : Int)
    ∧ (0 < a → (get_savings_info (a : Int) (b : Int)).2
        = (((get_savings_info (a : Int) (b : Int)).1 : ℚ) / (a : ℚ)) * 100)
    ∧ (a = 0 → (get_savings_info (a : Int) (b : Int)).2 = 0)
    ∧ (processFile cfg (TaskEnv.ok a b unlinkOk) p).1 = true
    ∧ get_savings_info 1000 400 = (600, 60) := by
  refine ⟨rfl, ?_, ?_, ?_, ?_⟩
  · intro ha
    have haq : (0 : Int) < (a : Int) := by exact_mod_cast ha
    simp only [get_savings_info, if_pos haq]
    push_cast
    ring
  · intro ha
    subst ha
    simp [get_savings_info]
  · rw [(processFile_spec cfg (TaskEnv.ok a b unlinkOk) p).1]
    unfold taskSucceeds
    rw [hfmt]
    rfl
  · simp only [get_savings_info]
    norm_num

/-- C7 witness at a concrete batch configuration and a concrete successful
task. -/
theorem C7_savings_witness :
    (lookupFormat ((⟨[], 80, ("WEBP").data, false, ("_compressed").data, true⟩
        : WorkerConfig).format_type)).isSome = true
    ∧ (get_savings_info (1000 : Int) (400 : Int)).1 = (1000 : Int) - 400
    ∧ ((0 : Nat) < 1000
        ∧ (processFile (⟨[], 80, ("WEBP").data, false, ("_compressed").data, true⟩
              : WorkerConfig)
            (TaskEnv.ok 1000 400 true) ⟨[], ("photo.jpg").data⟩).1 = true)
    ∧ get_savings_info 1000 400 = (600, 60) :=
  ⟨by decide,
   (C7_savings 1000 400 ⟨[], 80, ("WEBP").data, false, ("_compressed").data, true⟩
     ⟨[], ("photo.jpg").data⟩ true (by decide)).1,
   ⟨by decide,
    (C7_savings 1000 400 ⟨[], 80, ("WEBP").data, false, ("_compressed").data, true⟩
      ⟨[], ("photo.jpg").data⟩ true (by decide)).2.2.2.1⟩,
   (C7_savings 1000 400 ⟨[], 80, ("WEBP").data, false, ("_compressed").data, true⟩
     ⟨[], ("photo.jpg").data⟩ true (by decide)).2.2.2.2⟩

/-- C2 counterexample: the input `photo.WEBP` matches the WEBP output
extension case-insensitively, and with `deleteOriginal = true` the claim says
the output path equals the input path; the code computes `photo.webp`, which
is a different path. -/
theorem C2_collision_counterexample :
    (pySuffix (("photo.WEBP").data)).map lowerChar = ((".webp").data).map lowerChar
    ∧ computeOutputPath
        ⟨[⟨[], ("photo.WEBP").data⟩], 80, ("WEBP").data, true, ("_compressed").data, true⟩
        ⟨[], ("photo.WEBP").data⟩
      = Except.ok ⟨[], ("photo.webp").data⟩
    ∧ (⟨[], ("photo.webp").data⟩ : PPath) ≠ ⟨[], ("photo.WEBP").data⟩ :=
  ⟨by decide, rfl, by decide⟩

/-- C2 amended: for an input whose extension equals the target extension
case-insensitively, with `deleteOriginal = false` the output is
`<stem><collisionSuffix><ext>` in the input's directory; with
`deleteOriginal = true` the output is the input name with its suffix replaced
by the output extension — equal to the input path exactly when the input's
suffix is (case-sensitively) the output extension. -/
theorem C2_collision_amended (cfg : WorkerConfig) (p : PPath) (ext : List Char)
    (hfmt : lookupFormat cfg.format_type = some ext)
    (hcoll : (pySuffix p.name).map lowerChar = ext.map lowerChar) :
    (cfg.delete_original = false →
      computeOutputPath cfg p = .ok ⟨p.dir, pyStem p.name ++ cfg.postfixStr ++ ext⟩)
    ∧ (cfg.delete_original = true →
      computeOutputPath cfg p = .ok ⟨p.dir, pyStem p.name ++ ext⟩
      ∧ (pySuffix p.name = ext → computeOutputPath cfg p = .ok p)) := by
  rw [computeOutputPath_some cfg p ext hfmt]
  constructor
  · intro hdel
    rw [if_pos ⟨hcoll, hdel⟩]
  · intro hdel
    have hneg : ¬ ((pySuffix p.name).map lowerChar = ext.map lowerChar
        ∧ cfg.delete_original = false) := by
      rintro ⟨_, hfalse⟩
      rw [hdel] at hfalse
      cases hfalse
    rw [if_neg hneg]
    refine ⟨rfl, ?_⟩
    intro hsfx
    have hname : pyStem p.name ++ ext = p.name := by
      rw [← hsfx]
      exact pyStem_append_pySuffix p.name
    rw [hname]

/-- C2 amended witness: `photo.webp` with target WEBP gives
`photo_compressed.webp` when the original is kept, and `photo.webp` (the
input path itself) when the original is deleted. -/
theorem C2_collision_amended_witness :
    lookupFormat (("WEBP").data) = some ((".webp").data)
    ∧ (pySuffix (("photo.webp").data)).map lowerChar = ((".webp").data).map lowerChar
    ∧ computeOutputPath
        ⟨[⟨[], ("photo.webp").data⟩], 80, ("WEBP").data, false, ("_compressed").data, true⟩
        ⟨[], ("photo.webp").data⟩
      = Except.ok ⟨[], ("photo_compressed.webp").data⟩
    ∧ computeOutputPath
        ⟨[⟨[], ("photo.webp").data⟩], 80, ("WEBP").data, true, ("_compressed").data, true⟩
        ⟨[], ("photo.webp").data⟩
      = Except.ok ⟨[], ("photo.webp").data⟩ :=
  ⟨by decide, by decide,
   (C2_collision_amended
     ⟨[⟨[], ("photo.webp").data⟩], 80, ("WEBP").data, false, ("_compressed").data, true⟩
     ⟨[], ("photo.webp").data⟩ ((".webp").data) (by decide) (by decide)).1 rfl,
   ((C2_collision_amended
     ⟨[⟨[], ("photo.webp").data⟩], 80, ("WEBP").data, true, ("_compressed").data, true⟩
     ⟨[], ("photo.webp").data⟩ ((".webp").data) (by decide) (by decide)).2 rfl).2 (by decide)⟩

/-- C1 counterexample: one planning call over the two distinct inputs
`photo.jpg` and `photo.png` with target WEBP assigns both tasks the same
output path `photo.webp`: output paths of one batch are not pairwise
distinct. -/
theorem C1_output_uniqueness_counterexample :
    dedupFirst ((⟨[⟨[], ("photo.jpg").data⟩, ⟨[], ("photo.png").data⟩], 80,
        ("WEBP").data, false, ("_compressed").data, true⟩ : WorkerConfig)).files
      = [⟨[], ("photo.jpg").data⟩, ⟨[], ("photo.png").data⟩]
    ∧ (⟨[], ("photo.jpg").data⟩ : PPath) ≠ ⟨[], ("photo.png").data⟩
    ∧ computeOutputPath
        ⟨[⟨[], ("photo.jpg").data⟩, ⟨[], ("photo.png").data⟩], 80,
          ("WEBP").data, false, ("_compressed").data, true⟩
        ⟨[], ("photo.jpg").data⟩
      = Except.ok ⟨[], ("photo.webp").data⟩
    ∧ computeOutputPath
        ⟨[⟨[], ("photo.jpg").data⟩, ⟨[], ("photo.png").data⟩], 80,
          ("WEBP").data, false, ("_compressed").data, true⟩
        ⟨[], ("photo.png").data⟩
      = Except.ok ⟨[], ("photo.webp").data⟩ :=
  ⟨by decide, by decide, rfl, rfl⟩

/-- C1 amended: output paths of one batch are pairwise distinct provided the
inputs' (directory, stem) pairs are pairwise distinct and no input's stem
equals another input's stem (same directory) with the collision suffix
appended. -/
theorem C1_output_uniqueness_amended (cfg : WorkerConfig) (ext : List Char)
    (hfmt : lookupFormat cfg.format_type = some ext)
    (h : (dedupFirst cfg.files).Pairwise (fun p q =>
      p.dir = q.dir →
        pyStem p.name ≠ pyStem q.name
        ∧ pyStem p.name ++ cfg.postfixStr ≠ pyStem q.name
        ∧ pyStem q.name ++ cfg.postfixStr ≠ pyStem p.name)) :
    (dedupFirst cfg.files).Pairwise
      (fun p q => computeOutputPath cfg p ≠ computeOutputPath cfg q) := by
  refine h.imp ?_
  intro p q hpq heq
  rw [computeOutputPath_some cfg p ext hfmt, computeOutputPath_some cfg q ext hfmt] at heq
  by_cases hp1 : (pySuffix p.name).map lowerChar = ext.map lowerChar
      ∧ cfg.delete_original = false
    <;> by_cases hq1 : (pySuffix q.name).map lowerChar = ext.map lowerChar
      ∧ cfg.delete_original = false
  · rw [if_pos hp1, if_pos hq1] at heq
    simp only [Except.ok.injEq, PPath.mk.injEq] at heq
    obtain ⟨hdir, hname⟩ := heq
    obtain ⟨h1, _, _⟩ := hpq hdir
    exact h1 (List.append_cancel_right (List.append_cancel_right hname))
  · rw [if_pos hp1, if_neg hq1] at heq
    simp only [Except.ok.injEq, PPath.mk.injEq] at heq
    obtain ⟨hdir, hname⟩ := heq
    obtain ⟨_, h2, _⟩ := hpq hdir
    exact h2 (List.append_cancel_right hname)
  · rw [if_neg hp1, if_pos hq1] at heq
    simp only [Except.ok.injEq, PPath.mk.injEq] at heq
    obtain ⟨hdir, hname⟩ := heq
    obtain ⟨_, _, h3⟩ := hpq hdir
    exact h3 (List.append_cancel_right hname.symm)
  · rw [if_neg hp1, if_neg hq1] at heq
    simp only [Except.ok.injEq, PPath.mk.injEq] at heq
    obtain ⟨hdir, hname⟩ := heq
    obtain ⟨h1, _, _⟩ := hpq hdir
    exact h1 (List.append_cancel_right hname)

/-- C1 amended witness: a batch of `a.jpg` and `b.png` (distinct stems, no
suffix clash) has pairwise distinct output paths. -/
theorem C1_output_uniqueness_amended_witness :
    (dedupFirst ((⟨[⟨[], ("a.jpg").data⟩, ⟨[], ("b.png").data⟩], 80,
        ("WEBP").data, false, ("_compressed").data, true⟩ : WorkerConfig)).files).Pairwise
      (fun p q => p.dir = q.dir →
        pyStem p.name ≠ pyStem q.name
        ∧ pyStem p.name ++ ((⟨[⟨[], ("a.jpg").data⟩, ⟨[], ("b.png").data⟩], 80,
            ("WEBP").data, false, ("_compressed").data, true⟩ : WorkerConfig)).postfixStr
          ≠ pyStem q.name
        ∧ pyStem q.name ++ ((⟨[⟨[], ("a.jpg").data⟩, ⟨[], ("b.png").data⟩], 80,
            ("WEBP").data, false, ("_compressed").data, true⟩ : WorkerConfig)).postfixStr
          ≠ pyStem p.name)
    ∧ (dedupFirst ((⟨[⟨[], ("a.jpg").data⟩, ⟨[], ("b.png").data⟩], 80,
        ("WEBP").data, false, ("_compressed").data, true⟩ : WorkerConfig)).files).Pairwise
      (fun p q =>
        computeOutputPath (⟨[⟨[], ("a.jpg").data⟩, ⟨[], ("b.png").data⟩], 80,
          ("WEBP").data, false, ("_compressed").data, true⟩ : WorkerConfig) p
        ≠ computeOutputPath (⟨[⟨[], ("a.jpg").data⟩, ⟨[], ("b.png").data⟩], 80,
          ("WEBP").data, false, ("_compressed").data, true⟩ : WorkerConfig) q) :=
  ⟨by decide,
   C1_output_uniqueness_amended
     ⟨[⟨[], ("a.jpg").data⟩, ⟨[], ("b.png").data⟩], 80,
       ("WEBP").data, false, ("_compressed").data, true⟩
     ((".webp").data) (by decide) (by decide)⟩

/-- C9 counterexample: the GUI collector silently drops a non-existing path:
the result for `[ghost.jpg, real.jpg]` equals the result for `[real.jpg]`
alone, and a non-existing path alone produces the same output as an empty
query — the `List` return type has no error channel at all. -/
theorem C9_collection_error_counterexample :
    get_image_files_from_paths
        ⟨fun p => decide (p = ("real.jpg").data), fun _ => false, fun _ => []⟩
        [("ghost.jpg").data, ("real.jpg").data]
      = get_image_files_from_paths
        ⟨fun p => decide (p = ("real.jpg").data), fun _ => false, fun _ => []⟩
        [("real.jpg").data]
    ∧ get_image_files_from_paths
        ⟨fun _ => false, fun _ => false, fun _ => []⟩ [("ghost.jpg").data]
      = get_image_files_from_paths ⟨fun _ => false, fun _ => false, fun _ => []⟩ []
    ∧ get_image_files_from_paths
        ⟨fun _ => false, fun _ => false, fun _ => []⟩ [("ghost.jpg").data] = [] :=
  ⟨by decide, by decide, by decide⟩

/-- C9 amended: the GUI collector (`get_image_files_from_paths`) skips a path
that is neither an existing file nor a directory without reporting anything —
indistinguishable from zero matches; only the CLI entry point
(`ImageCompressor.process_input`) reports a non-existing path as a distinct
condition. -/
theorem C9_collection_error_amended (fs : FS) (c : ImageCompressor) (ghost : List Char)
    (rest : List (List Char)) (ext : List Char)
    (h1 : fs.isFile ghost = false) (h2 : fs.isDir ghost = false)
    (hfmt : lookupFormat c.output_format = some ext) (hq : stripQuotes ghost = ghost) :
    get_image_files_from_paths fs (ghost :: rest) = get_image_files_from_paths fs rest
    ∧ process_input fs c ghost = .ok CliAction.pathNotFound := by
  constructor
  · simp only [get_image_files_from_paths, h1, h2]
    simp
  · simp only [process_input, hq, hfmt]
    simp [h1, h2]

/-- C9 amended witness: a filesystem with one real image; the ghost path is
dropped by the collector and reported by the CLI. -/
theorem C9_collection_error_amended_witness :
    ((⟨fun p => decide (p = ("real.jpg").data), fun _ => false, fun _ => []⟩ : FS).isFile
        (("ghost.jpg").data) = false
      ∧ (⟨fun p => decide (p = ("real.jpg").data), fun _ => false, fun _ => []⟩ : FS).isDir
        (("ghost.jpg").data) = false)
    ∧ get_image_files_from_paths
        ⟨fun p => decide (p = ("real.jpg").data), fun _ => false, fun _ => []⟩
        (("ghost.jpg").data :: [("real.jpg").data])
      = get_image_files_from_paths
        ⟨fun p => decide (p = ("real.jpg").data), fun _ => false, fun _ => []⟩
        [("real.jpg").data]
    ∧ process_input
        ⟨fun p => decide (p = ("real.jpg").data), fun _ => false, fun _ => []⟩
        ⟨80, ("WEBP").data⟩ (("ghost.jpg").data)
      = .ok CliAction.pathNotFound :=
  ⟨⟨by decide, by decide⟩,
   (C9_collection_error_amended
     ⟨fun p => decide (p = ("real.jpg").data), fun _ => false, fun _ => []⟩
     ⟨80, ("WEBP").data⟩ (("ghost.jpg").data) [("real.jpg").data] ((".webp").data)
     (by decide) (by decide) (by decide) (by decide)).1,
   (C9_collection_error_amended
     ⟨fun p => decide (p = ("real.jpg").data), fun _ => false, fun _ => []⟩
     ⟨80, ("WEBP").data⟩ (("ghost.jpg").data) [("real.jpg").data] ((".webp").data)
     (by decide) (by decide) (by decide) (by decide)).2⟩

/-- C4 counterexample: the worker deduplicates with `list(set(files))` before
its duplicate check, so for the supplied list `[a.jpg, a.jpg]` (one removed
entry) the worker's reported duplicate metric is `none`, not 1; and Python's
unordered `set` admits `[b.png, a.jpg]` for the supplied `[a.jpg, b.png]`, so
the survivors need not keep the original first-occurrence order. -/
theorem C4_dedup_counterexample :
    IsPySetList [("a.jpg").data, ("a.jpg").data] [("a.jpg").data]
    ∧ [("a.jpg").data, ("a.jpg").data].length
        - (dedupFirst [("a.jpg").data, ("a.jpg").data]).length = 1
    ∧ workerDuplicatesReported [("a.jpg").data] = none
    ∧ IsPySetList [("a.jpg").data, ("b.png").data] [("b.png").data, ("a.jpg").data]
    ∧ dedupFirst [("b.png").data, ("a.jpg").data] = [("b.png").data, ("a.jpg").data]
    ∧ [("b.png").data, ("a.jpg").data] ≠ [("a.jpg").data, ("b.png").data] :=
  ⟨by decide, by decide, by decide, by decide, by decide, by decide⟩

/-- C4 amended: deduplication keeps exactly one occurrence of each supplied
path (survivors are the distinct elements; the worker's own second
deduplication is a no-op and its duplicate metric is never reported); the
GUI-side `dict.fromkeys` dedup is order-preserving, duplicate-free and
membership-exact, and the GUI duplicate count equals the number of removed
entries. -/
theorem C4_dedup_amended (L ys : List (List Char)) (h : IsPySetList L ys) :
    dedupFirst ys = ys
    ∧ workerDuplicatesReported ys = none
    ∧ (∀ a, a ∈ ys ↔ a ∈ L)
    ∧ (dedupFirst L).Sublist L
    ∧ (dedupFirst L).Nodup
    ∧ (∀ a, a ∈ dedupFirst L ↔ a ∈ L)
    ∧ gui_duplicate_count L = L.length - L.toFinset.card := by
  obtain ⟨hnd, hsub1, hsub2⟩ := h
  have hself : dedupFirst ys = ys := dedupFirst_eq_self ys hnd
  refine ⟨hself, ?_, ?_, dedupFirst_sublist L, dedupFirst_nodup L,
    fun a => mem_dedupFirst L a, ?_⟩
  · simp [workerDuplicatesReported, hself]
  · intro a
    exact ⟨fun ha => hsub1 a ha, fun ha => hsub2 a ha⟩
  · unfold gui_duplicate_count
    rw [dedupFirst_length]

/-- C4 amended witness: `[a.jpg, b.png, a.jpg]` with admissible set result
`[b.png, a.jpg]`. -/
theorem C4_dedup_amended_witness :
    IsPySetList [("a.jpg").data, ("b.png").data, ("a.jpg").data]
      [("b.png").data, ("a.jpg").data]
    ∧ (dedupFirst [("b.png").data, ("a.jpg").data] = [("b.png").data, ("a.jpg").data]
      ∧ workerDuplicatesReported [("b.png").data, ("a.jpg").data] = none
      ∧ (∀ a, a ∈ [("b.png").data, ("a.jpg").data]
          ↔ a ∈ [("a.jpg").data, ("b.png").data, ("a.jpg").data])
      ∧ (dedupFirst [("a.jpg").data, ("b.png").data, ("a.jpg").data]).Sublist
          [("a.jpg").data, ("b.png").data, ("a.jpg").data]
      ∧ (dedupFirst [("a.jpg").data, ("b.png").data, ("a.jpg").data]).Nodup
      ∧ (∀ a, a ∈ dedupFirst [("a.jpg").data, ("b.png").data, ("a.jpg").data]
          ↔ a ∈ [("a.jpg").data, ("b.png").data, ("a.jpg").data])
      ∧ gui_duplicate_count [("a.jpg").data, ("b.png").data, ("a.jpg").data]
          = [("a.jpg").data, ("b.png").data, ("a.jpg").data].length
            - [("a.jpg").data, ("b.png").data, ("a.jpg").data].toFinset.card) :=
  ⟨by decide,
   C4_dedup_amended [("a.jpg").data, ("b.png").data, ("a.jpg").data]
     [("b.png").data, ("a.jpg").data] (by decide)⟩

/-- C3: contrary to the claim, nothing is validated at planning time.
`ImageCompressor.__init__` accepts quality `-1` and the unsupported format
`BMP` without raising, although the class's own `quality` and `output_format`
setters reject exactly these values (`ValueError`) — `__init__` assigns the
private fields directly, bypassing its own validating setters.  The worker
then creates and runs one task per file (here: one task, one per-task error,
a progress event, `finished(0, 1)`) instead of failing atomically with zero
tasks. -/
theorem C3_validation_code_bug :
    ImageCompressor.init (-1) (("WEBP").data) true = .ok ⟨-1, ("WEBP").data⟩
    ∧ (quality_setter ⟨50, ("WEBP").data⟩ (PyVal.int (-1))).2 = some PyErr.valueErr
    ∧ ImageCompressor.init 50 (("BMP").data) true = .ok ⟨50, ("BMP").data⟩
    ∧ (output_format_setter ⟨50, ("WEBP").data⟩ (("BMP").data) true).2 = some PyErr.valueErr
    ∧ initOk ⟨[⟨[], ("a.jpg").data⟩], -1, ("WEBP").data, false,
        ("_compressed").data, true⟩ = true
    ∧ runWorker ⟨[⟨[], ("a.jpg").data⟩], -1, ("WEBP").data, false,
          ("_compressed").data, true⟩
        (fun _ => TaskEnv.encodeError) none
      = ⟨0, 1, [Event.logProcessing ⟨[], ("a.jpg").data⟩,
                Event.logOutput ⟨[], ("a.webp").data⟩,
                Event.logError (("a.jpg").data),
                Event.progress 100,
                Event.finished 0 1]⟩ :=
  ⟨rfl, by decide, rfl, by decide, by decide, by decide⟩

/-- The duplicate-log prefix contains no progress event. -/
theorem dupEvents_progressValues (cfg : WorkerConfig) :
    progressValues (match workerDuplicatesReported cfg.files with
      | some n => [Event.logDuplicates n]
      | none => []) = [] := by
  cases workerDuplicatesReported cfg.files <;> rfl

/-- The duplicate-log prefix contains no error log and no `file_processed`. -/
theorem dupEvents_countP (cfg : WorkerConfig) (p : Event → Bool)
    (hp : ∀ n, p (Event.logDuplicates n) = false) :
    (match workerDuplicatesReported cfg.files with
      | some n => [Event.logDuplicates n]
      | none => []).countP p = 0 := by
  cases workerDuplicatesReported cfg.files with
  | none => rfl
  | some n => simp [List.countP_cons, hp]

/-- C5: any failure while processing one task is confined to that task: in a
batch of `N` deduplicated tasks where exactly one fails, the run finishes
with `successful = N - 1` and `errors = 1`, a progress event is emitted for
every one of the `N` tasks, the failing task emits exactly one per-task error
log, the other `N - 1` tasks each emit their `file_processed` signal, and the
terminal event carries the counts `(N - 1, 1)`. -/
theorem C5_partial_failure_isolation (cfg : WorkerConfig) (env : Nat → TaskEnv) (jf : Nat)
    (hinit : initOk cfg = true)
    (hjf : jf < (dedupFirst cfg.files).length)
    (hfail : taskSucceeds cfg (env jf) = false)
    (hok : ∀ k, k < (dedupFirst cfg.files).length → k ≠ jf →
      taskSucceeds cfg (env k) = true) :
    (runWorker cfg env none).successful = (dedupFirst cfg.files).length - 1
    ∧ (runWorker cfg env none).errors = 1
    ∧ (progressValues (runWorker cfg env none).events).length
        = (dedupFirst cfg.files).length
    ∧ (runWorker cfg env none).events.countP isErrLogEv = 1
    ∧ (runWorker cfg env none).events.countP isProcessedEv
        = (dedupFirst cfg.files).length - 1
    ∧ Event.finished ((dedupFirst cfg.files).length - 1) 1
        ∈ (runWorker cfg env none).events := by
  obtain ⟨h1, h2, h3, h4⟩ := runLoop_one_fail cfg env (dedupFirst cfg.files).length
    (dedupFirst cfg.files) 0 jf (Nat.zero_le jf) (by omega) hfail
    (fun j hj1 hj2 hj3 => hok j (by omega) hj3)
  have hprog := runLoop_progress cfg env (dedupFirst cfg.files).length
    (dedupFirst cfg.files) 0
  have hdp := dupEvents_progressValues cfg
  have hde := dupEvents_countP cfg isErrLogEv (fun n => rfl)
  have hdc := dupEvents_countP cfg isProcessedEv (fun n => rfl)
  rw [runWorker_eq cfg env none hinit]
  refine ⟨h1, h2, ?_, ?_, ?_, ?_⟩
  · simp only [progressValues, List.filterMap_append]
    simp only [progressValues] at hdp hprog
    rw [hdp, hprog]
    simp [Event.progressVal]
  · simp only [List.countP_append, hde, h3]
    rfl
  · simp only [List.countP_append, hdc, h4]
    simp [isProcessedEv]
  · rw [h1, h2]
    simp [List.mem_append]

/-- C5 witness: two tasks `a.jpg`, `b.png`; the first hits an unwritable
destination directory, the second succeeds. -/
theorem C5_partial_failure_isolation_witness :
    initOk ⟨[⟨[], ("a.jpg").data⟩, ⟨[], ("b.png").data⟩], 80, ("WEBP").data, false,
        ("_compressed").data, true⟩ = true
    ∧ (0 : Nat) < (dedupFirst ((⟨[⟨[], ("a.jpg").data⟩, ⟨[], ("b.png").data⟩], 80,
        ("WEBP").data, false, ("_compressed").data, true⟩ : WorkerConfig)).files).length
    ∧ taskSucceeds ⟨[⟨[], ("a.jpg").data⟩, ⟨[], ("b.png").data⟩], 80, ("WEBP").data, false,
        ("_compressed").data, true⟩
        ((fun k => if k = 0 then TaskEnv.noWritePermission else TaskEnv.ok 10 5 true) 0)
      = false
    ∧ (∀ k, k < (dedupFirst ((⟨[⟨[], ("a.jpg").data⟩, ⟨[], ("b.png").data⟩], 80,
        ("WEBP").data, false, ("_compressed").data, true⟩ : WorkerConfig)).files).length →
        k ≠ 0 →
        taskSucceeds ⟨[⟨[], ("a.jpg").data⟩, ⟨[], ("b.png").data⟩], 80, ("WEBP").data, false,
          ("_compressed").data, true⟩
          ((fun k => if k = 0 then TaskEnv.noWritePermission else TaskEnv.ok 10 5 true) k)
        = true)
    ∧ ((runWorker ⟨[⟨[], ("a.jpg").data⟩, ⟨[], ("b.png").data⟩], 80, ("WEBP").data, false,
          ("_compressed").data, true⟩
        (fun k => if k = 0 then TaskEnv.noWritePermission else TaskEnv.ok 10 5 true)
        none).successful
      = (dedupFirst ((⟨[⟨[], ("a.jpg").data⟩, ⟨[], ("b.png").data⟩], 80, ("WEBP").data, false,
          ("_compressed").data, true⟩ : WorkerConfig)).files).length - 1
      ∧ (runWorker ⟨[⟨[], ("a.jpg").data⟩, ⟨[], ("b.png").data⟩], 80, ("WEBP").data, false,
            ("_compressed").data, true⟩
          (fun k => if k = 0 then TaskEnv.noWritePermission else TaskEnv.ok 10 5 true)
          none).errors = 1
      ∧ (progressValues (runWorker ⟨[⟨[], ("a.jpg").data⟩, ⟨[], ("b.png").data⟩], 80,
            ("WEBP").data, false, ("_compressed").data, true⟩
          (fun k => if k = 0 then TaskEnv.noWritePermission else TaskEnv.ok 10 5 true)
          none).events).length
        = (dedupFirst ((⟨[⟨[], ("a.jpg").data⟩, ⟨[], ("b.png").data⟩], 80, ("WEBP").data,
            false, ("_compressed").data, true⟩ : WorkerConfig)).files).length
      ∧ (runWorker ⟨[⟨[], ("a.jpg").data⟩, ⟨[], ("b.png").data⟩], 80, ("WEBP").data, false,
            ("_compressed").data, true⟩
          (fun k => if k = 0 then TaskEnv.noWritePermission else TaskEnv.ok 10 5 true)
          none).events.countP isErrLogEv = 1
      ∧ (runWorker ⟨[⟨[], ("a.jpg").data⟩, ⟨[], ("b.png").data⟩], 80, ("WEBP").data, false,
            ("_compressed").data, true⟩
          (fun k => if k = 0 then TaskEnv.noWritePermission else TaskEnv.ok 10 5 true)
          none).events.countP isProcessedEv
        = (dedupFirst ((⟨[⟨[], ("a.jpg").data⟩, ⟨[], ("b.png").data⟩], 80, ("WEBP").data,
            false, ("_compressed").data, true⟩ : WorkerConfig)).files).length - 1
      ∧ Event.finished
          ((dedupFirst ((⟨[⟨[], ("a.jpg").data⟩, ⟨[], ("b.png").data⟩], 80, ("WEBP").data,
            false, ("_compressed").data, true⟩ : WorkerConfig)).files).length - 1) 1
          ∈ (runWorker ⟨[⟨[], ("a.jpg").data⟩, ⟨[], ("b.png").data⟩], 80, ("WEBP").data,
              false, ("_compressed").data, true⟩
            (fun k => if k = 0 then TaskEnv.noWritePermission else TaskEnv.ok 10 5 true)
            none).events) :=
  ⟨by decide, by decide, by decide, by decide,
   C5_partial_failure_isolation
     ⟨[⟨[], ("a.jpg").data⟩, ⟨[], ("b.png").data⟩], 80, ("WEBP").data, false,
       ("_compressed").data, true⟩
     (fun k => if k = 0 then TaskEnv.noWritePermission else TaskEnv.ok 10 5 true) 0
     (by decide) (by decide) (by decide) (by decide)⟩

/-- C6 counterexample: a two-task batch cancelled after the first task
completes has partial counts `(1, 0)`, and the worker's terminal event
carries them without any cancelled flag; the GUI's cancellation path reports
`cancelled = true` with counts `(0, 0)` — the claimed "cancelled = true
together with the partial counts" result does not exist. -/
theorem C6_cancellation_counterexample :
    (runWorker ⟨[⟨[], ("a.jpg").data⟩, ⟨[], ("b.png").data⟩], 80, ("WEBP").data, false,
          ("_compressed").data, true⟩
        (fun _ => TaskEnv.ok 10 5 true) (some 1)).successful = 1
    ∧ (runWorker ⟨[⟨[], ("a.jpg").data⟩, ⟨[], ("b.png").data⟩], 80, ("WEBP").data, false,
          ("_compressed").data, true⟩
        (fun _ => TaskEnv.ok 10 5 true) (some 1)).errors = 0
    ∧ Event.finished 1 0 ∈ (runWorker ⟨[⟨[], ("a.jpg").data⟩, ⟨[], ("b.png").data⟩], 80,
          ("WEBP").data, false, ("_compressed").data, true⟩
        (fun _ => TaskEnv.ok 10 5 true) (some 1)).events
    ∧ stop_compression_result = ⟨0, 0, true⟩
    ∧ stop_compression_result.successful
      ≠ (runWorker ⟨[⟨[], ("a.jpg").data⟩, ⟨[], ("b.png").data⟩], 80, ("WEBP").data, false,
            ("_compressed").data, true⟩
          (fun _ => TaskEnv.ok 10 5 true) (some 1)).successful :=
  ⟨by decide, by decide, by decide, rfl, by decide⟩

/-- C6 amended: the flag is checked before each task and no task from the
observation point on is started — the cancelled run equals the uncancelled
run on the task prefix, and exactly `min c N` progress events are emitted;
the worker's terminal event carries the partial counts but no cancelled flag,
while the GUI's cancellation handler reports `cancelled = true` with both
counts zeroed instead of the partial counts. -/
theorem C6_cancellation_amended (cfg : WorkerConfig) (env : Nat → TaskEnv) (c : Nat)
    (hinit : initOk cfg = true) :
    (runWorker cfg env (some c)).successful
      = (runLoop cfg env none (dedupFirst cfg.files).length
          ((dedupFirst cfg.files).take c) 0).1
    ∧ (runWorker cfg env (some c)).errors
      = (runLoop cfg env none (dedupFirst cfg.files).length
          ((dedupFirst cfg.files).take c) 0).2.1
    ∧ (progressValues (runWorker cfg env (some c)).events).length
      = min c (dedupFirst cfg.files).length
    ∧ Event.finished (runWorker cfg env (some c)).successful
        (runWorker cfg env (some c)).errors ∈ (runWorker cfg env (some c)).events
    ∧ stop_compression_result = ⟨0, 0, true⟩ := by
  have hcan := runLoop_cancel cfg env (dedupFirst cfg.files).length c (dedupFirst cfg.files) 0
  rw [Nat.sub_zero] at hcan
  have hprog := runLoop_progress cfg env (dedupFirst cfg.files).length
    ((dedupFirst cfg.files).take c) 0
  have hdp := dupEvents_progressValues cfg
  rw [runWorker_eq cfg env (some c) hinit, hcan]
  refine ⟨rfl, rfl, ?_, ?_, rfl⟩
  · simp only [progressValues, List.filterMap_append]
    simp only [progressValues] at hdp hprog
    rw [hdp, hprog]
    simp [Event.progressVal, List.length_take]
  · simp [List.mem_append]

/-- C6 amended witness: the two-task batch cancelled after one task. -/
theorem C6_cancellation_amended_witness :
    initOk ⟨[⟨[], ("a.jpg").data⟩, ⟨[], ("b.png").data⟩], 80, ("WEBP").data, false,
        ("_compressed").data, true⟩ = true
    ∧ ((runWorker ⟨[⟨[], ("a.jpg").data⟩, ⟨[], ("b.png").data⟩], 80, ("WEBP").data, false,
            ("_compressed").data, true⟩
          (fun _ => TaskEnv.ok 10 5 true) (some 1)).successful
        = (runLoop ⟨[⟨[], ("a.jpg").data⟩, ⟨[], ("b.png").data⟩], 80, ("WEBP").data, false,
              ("_compressed").data, true⟩
            (fun _ => TaskEnv.ok 10 5 true) none
            (dedupFirst ((⟨[⟨[], ("a.jpg").data⟩, ⟨[], ("b.png").data⟩], 80, ("WEBP").data,
              false, ("_compressed").data, true⟩ : WorkerConfig)).files).length
            ((dedupFirst ((⟨[⟨[], ("a.jpg").data⟩, ⟨[], ("b.png").data⟩], 80, ("WEBP").data,
              false, ("_compressed").data, true⟩ : WorkerConfig)).files).take 1) 0).1
      ∧ (runWorker ⟨[⟨[], ("a.jpg").data⟩, ⟨[], ("b.png").data⟩], 80, ("WEBP").data, false,
            ("_compressed").data, true⟩
          (fun _ => TaskEnv.ok 10 5 true) (some 1)).errors
        = (runLoop ⟨[⟨[], ("a.jpg").data⟩, ⟨[], ("b.png").data⟩], 80, ("WEBP").data, false,
              ("_compressed").data, true⟩
            (fun _ => TaskEnv.ok 10 5 true) none
            (dedupFirst ((⟨[⟨[], ("a.jpg").data⟩, ⟨[], ("b.png").data⟩], 80, ("WEBP").data,
              false, ("_compressed").data, true⟩ : WorkerConfig)).files).length
            ((dedupFirst ((⟨[⟨[], ("a.jpg").data⟩, ⟨[], ("b.png").data⟩], 80, ("WEBP").data,
              false, ("_compressed").data, true⟩ : WorkerConfig)).files).take 1) 0).2.1
      ∧ (progressValues (runWorker ⟨[⟨[], ("a.jpg").data⟩, ⟨[], ("b.png").data⟩], 80,
            ("WEBP").data, false, ("_compressed").data, true⟩
          (fun _ => TaskEnv.ok 10 5 true) (some 1)).events).length
        = min 1 (dedupFirst ((⟨[⟨[], ("a.jpg").data⟩, ⟨[], ("b.png").data⟩], 80, ("WEBP").data,
            false, ("_compressed").data, true⟩ : WorkerConfig)).files).length
      ∧ Event.finished
          (runWorker ⟨[⟨[], ("a.jpg").data⟩, ⟨[], ("b.png").data⟩], 80, ("WEBP").data, false,
              ("_compressed").data, true⟩
            (fun _ => TaskEnv.ok 10 5 true) (some 1)).successful
          (runWorker ⟨[⟨[], ("a.jpg").data⟩, ⟨[], ("b.png").data⟩], 80, ("WEBP").data, false,
              ("_compressed").data, true⟩
            (fun _ => TaskEnv.ok 10 5 true) (some 1)).errors
          ∈ (runWorker ⟨[⟨[], ("a.jpg").data⟩, ⟨[], ("b.png").data⟩], 80, ("WEBP").data, false,
              ("_compressed").data, true⟩
            (fun _ => TaskEnv.ok 10 5 true) (some 1)).events
      ∧ stop_compression_result = ⟨0, 0, true⟩) :=
  ⟨by decide,
   C6_cancellation_amended
     ⟨[⟨[], ("a.jpg").data⟩, ⟨[], ("b.png").data⟩], 80, ("WEBP").data, false,
       ("_compressed").data, true⟩
     (fun _ => TaskEnv.ok 10 5 true) 1 (by decide)⟩

/-- Adjacent monotonicity lifts to `Chain'` over a mapped range. -/
theorem chain_le_of_map_range (f : Nat → Nat) (N : Nat) (hf : ∀ i, f i ≤ f (i + 1)) :
    List.Chain' (fun a b => a ≤ b) ((List.range N).map f) := by
  rw [List.chain'_iff_get]
  intro i hi
  simp only [List.get_eq_getElem, List.getElem_map, List.getElem_range]
  exact hf i

/-- C8 counterexample: the progress value emitted after 29 of 50 tasks is
`int((29 / 50) * 100)` computed in binary64 floats, which is 57 (since
`29 / 50 * 100 = 57.99999999999999` in doubles), while the exact integer
percentage of 29 out of 50 is 58; a concrete 50-task run indeed emits 57 as
its 29th progress value. -/
theorem C8_progress_counterexample :
    pyProgress 29 50 = 57
    ∧ (100 * 29) / 50 = 58
    ∧ (57 : Nat) ≠ 58
    ∧ (progressValues (runWorker ⟨(List.range 50).map
          (fun i => ⟨[], List.replicate i 'a' ++ ("f.jpg").data⟩), 80, ("WEBP").data, false,
          ("_compressed").data, true⟩
        (fun _ => TaskEnv.ok 10 5 true) none).events).getD 28 0 = 57 :=
  ⟨by decide, by decide, by decide, by decide⟩

/-- C8 amended: every emitted progress value is `int(((i+1)/total)*100)`
evaluated in binary64 float arithmetic (`pyProgress`), which can be one less
than the exact integer percentage; the sequence of emitted values is
monotonically non-decreasing, and for an uncancelled run over at least one
task the final value is exactly 100. -/
theorem C8_progress_amended (cfg : WorkerConfig) (env : Nat → TaskEnv)
    (hinit : initOk cfg = true) (hN : 0 < (dedupFirst cfg.files).length) :
    progressValues (runWorker cfg env none).events
      = (List.range (dedupFirst cfg.files).length).map
          (fun i => pyProgress (i + 1) (dedupFirst cfg.files).length)
    ∧ List.Chain' (fun a b => a ≤ b) (progressValues (runWorker cfg env none).events)
    ∧ (progressValues (runWorker cfg env none).events).getLast? = some 100 := by
  have hprog := runLoop_progress cfg env (dedupFirst cfg.files).length (dedupFirst cfg.files) 0
  have hdp := dupEvents_progressValues cfg
  have hfin : ∀ a b : Nat, List.filterMap Event.progressVal [Event.finished a b] = [] :=
    fun a b => rfl
  have hmain : progressValues (runWorker cfg env none).events
      = (List.range (dedupFirst cfg.files).length).map
          (fun i => pyProgress (i + 1) (dedupFirst cfg.files).length) := by
    rw [runWorker_eq cfg env none hinit]
    simp only [progressValues, List.filterMap_append]
    simp only [progressValues] at hdp hprog
    rw [hdp, hprog, hfin, List.append_nil, List.nil_append]
    apply List.map_congr_left
    intro j _
    congr 1
    omega
  refine ⟨hmain, ?_, ?_⟩
  · rw [hmain]
    exact chain_le_of_map_range _ _ (fun i => pyProgress_mono (i + 1) (i + 1 + 1)
      (dedupFirst cfg.files).length (by omega) (by omega) (by omega))
  · rw [hmain]
    obtain ⟨m, hm⟩ : ∃ m, (dedupFirst cfg.files).length = m + 1 :=
      ⟨(dedupFirst cfg.files).length - 1, by omega⟩
    rw [hm, List.range_succ, List.map_append, List.map_cons, List.map_nil,
      List.getLast?_concat]
    congr 1
    exact pyProgress_self (m + 1) (by omega)

/-- C8 amended witness: a three-task run emits `[33, 66, 100]` — each value
the float evaluation, non-decreasing, final value 100. -/
theorem C8_progress_amended_witness :
    initOk ⟨[⟨[], ("a.jpg").data⟩, ⟨[], ("b.png").data⟩, ⟨[], ("c.png").data⟩], 80,
        ("WEBP").data, false, ("_compressed").data, true⟩ = true
    ∧ 0 < (dedupFirst ((⟨[⟨[], ("a.jpg").data⟩, ⟨[], ("b.png").data⟩, ⟨[], ("c.png").data⟩],
        80, ("WEBP").data, false, ("_compressed").data, true⟩ : WorkerConfig)).files).length
    ∧ (progressValues (runWorker ⟨[⟨[], ("a.jpg").data⟩, ⟨[], ("b.png").data⟩,
          ⟨[], ("c.png").data⟩], 80, ("WEBP").data, false, ("_compressed").data, true⟩
        (fun _ => TaskEnv.ok 10 5 true) none).events
      = (List.range (dedupFirst ((⟨[⟨[], ("a.jpg").data⟩, ⟨[], ("b.png").data⟩,
          ⟨[], ("c.png").data⟩], 80, ("WEBP").data, false, ("_compressed").data, true⟩
            : WorkerConfig)).files).length).map
          (fun i => pyProgress (i + 1)
            (dedupFirst ((⟨[⟨[], ("a.jpg").data⟩, ⟨[], ("b.png").data⟩,
              ⟨[], ("c.png").data⟩], 80, ("WEBP").data, false, ("_compressed").data, true⟩
                : WorkerConfig)).files).length)
      ∧ List.Chain' (fun a b => a ≤ b)
          (progressValues (runWorker ⟨[⟨[], ("a.jpg").data⟩, ⟨[], ("b.png").data⟩,
              ⟨[], ("c.png").data⟩], 80, ("WEBP").data, false, ("_compressed").data, true⟩
            (fun _ => TaskEnv.ok 10 5 true) none).events)
      ∧ (progressValues (runWorker ⟨[⟨[], ("a.jpg").data⟩, ⟨[], ("b.png").data⟩,
              ⟨[], ("c.png").data⟩], 80, ("WEBP").data, false, ("_compressed").data, true⟩
            (fun _ => TaskEnv.ok 10 5 true) none).events).getLast? = some 100) :=
  ⟨by decide, by decide,
   C8_progress_amended
     ⟨[⟨[], ("a.jpg").data⟩, ⟨[], ("b.png").data⟩, ⟨[], ("c.png").data⟩], 80,
       ("WEBP").data, false, ("_compressed").data, true⟩
     (fun _ => TaskEnv.ok 10 5 true) (by decide) (by decide)⟩
